import Mathlib

/-!
# Convertorio Go SDK (`libs/go/client.go`, `libs/go/types.go`)

A shallow embedding of the conversion client: the event registry (`On`, `emit`),
the service calls (`requestUploadURL`, `uploadToS3`, `confirmUpload`, `GetJob`,
`GetAccount`, `ListJobs`, `downloadFile`), the status-polling loop and the
orchestration `ConvertFile`.

Conventions of the embedding.

* A Go `error` is represented by its message (`err.Error()`); a Go function
  returning `(T, error)` returns `Except String T`, the Go pair `(nil, err)`
  being `Except.error msg` and `(v, nil)` being `Except.ok v`.
* Effects are made explicit by threading a `World`: the caller-side state the
  event handlers act on, the file system, and a ghost `trace` recording, in
  order, every call of `emit`, every HTTP round trip and every `time.Sleep`.
* Everything outside the repository that the code calls (the HTTP transport,
  `http.NewRequest`, the JSON codec, failures of local file operations) is a
  field of `Env` and is universally quantified in the theorems.
* Go `int`, `int64` and `time.Duration` are mathematical integers; no
  arithmetic of the client can overflow before `2^63` loop iterations.
* A run-time panic is an explicit outcome (`Outcome.panicked`).
-/

namespace Convertorio

/-! ## `path/filepath` (Unix flavour, separator `/`)

The functions work on the characters of the path.  Go works on bytes, but the
only bytes inspected are `/` and `.`, which never occur inside a multi-byte
UTF-8 sequence, so both views agree. -/

namespace filepath

/-- Go `os.IsPathSeparator` on Unix. -/
def isPathSeparator (c : Char) : Bool := c == '/'

/-- The first character of the list is a separator. -/
def startsWithSeparator : List Char → Bool
  | [] => false
  | c :: _ => isPathSeparator c

/-- Loop of `filepath.Ext`: walks the path from its last character towards
the front (the argument is the reversed path, `acc` the characters already
passed), stops at a separator, and returns the suffix starting at the first
dot met. -/
def extScan : List Char → List Char → List Char
  | [], _ => []
  | c :: rest, acc =>
    if isPathSeparator c then []
    else if c = '.' then '.' :: acc
    else extScan rest (c :: acc)

/-- Go `filepath.Ext`: the suffix beginning at the final dot in the final
element of the path; empty if there is no dot. -/
def Ext (path : String) : String :=
  String.mk (extScan path.data.reverse [])

/-- Go `filepath.Base`: the last element of the path, trailing separators removed
first; `"."` for the empty path and `"/"` for a path of separators only. -/
def Base (path : String) : String :=
  if path = "" then "."
  else
    let stripped := path.data.reverse.dropWhile isPathSeparator
    let last := (stripped.takeWhile (fun c => !isPathSeparator c)).reverse
    if last = [] then "/" else String.mk last

/-- The `..` case of `Clean`, "can backtrack": starting from the write index
`w` (already decremented once), keep decrementing while `w > dotdot` and
`buf[w]` is not a separator. -/
def backtrackTo (buf : List Char) (dotdot : Nat) : Nat → Nat
  | 0 => 0
  | w + 1 =>
    if dotdot < w + 1 && !isPathSeparator (buf.getD (w + 1) '/') then
      backtrackTo buf dotdot w
    else w + 1

/-- Main loop of `filepath.Clean` over the unread part of the path, with the
output buffer `out` and the index `dotdot` below which `..` may not remove.
`copying = true` is the inner loop of the "real path element" case (copy up to
the next separator); `copying = false` is the head of the outer loop, positioned
at the start of a path element. -/
def cleanLoop (rooted : Bool) : Bool → List Char → List Char → Nat → List Char
  | _, [], out, _ => out
  | true, c :: tl, out, dotdot =>
    if isPathSeparator c then cleanLoop rooted false tl out dotdot
    else cleanLoop rooted true tl (out ++ [c]) dotdot
  | false, c :: tl, out, dotdot =>
    if isPathSeparator c then
      -- empty path element
      cleanLoop rooted false tl out dotdot
    else if c = '.' ∧ (tl = [] ∨ startsWithSeparator tl = true) then
      -- . element
      cleanLoop rooted false tl out dotdot
    else
      match tl with
      | d :: tl2 =>
        if c = '.' ∧ d = '.' ∧ (tl2 = [] ∨ startsWithSeparator tl2 = true) then
          -- .. element: remove to last separator
          if dotdot < out.length then
            cleanLoop rooted false tl2
              (out.take (backtrackTo out dotdot (out.length - 1))) dotdot
          else if !rooted then
            let out1 := if 0 < out.length then out ++ ['/'] else out
            let out2 := out1 ++ ['.', '.']
            cleanLoop rooted false tl2 out2 out2.length
          else cleanLoop rooted false tl2 out dotdot
        else
          -- real path element: add slash if needed, then copy the element
          let out1 :=
            if (rooted && out.length != 1) || (!rooted && out.length != 0) then out ++ ['/']
            else out
          cleanLoop rooted true (d :: tl2) (out1 ++ [c]) dotdot
      | [] =>
        let out1 :=
          if (rooted && out.length != 1) || (!rooted && out.length != 0) then out ++ ['/']
          else out
        out1 ++ [c]

/-- Go `filepath.Clean`: the shortest path name equivalent to `path` by purely
lexical processing. -/
def Clean (path : String) : String :=
  if path = "" then "."
  else
    let rooted := startsWithSeparator path.data
    let out :=
      if rooted then cleanLoop true false path.data.tail ['/'] 1
      else cleanLoop false false path.data [] 0
    if out = [] then "." else String.mk out

/-- Go `filepath.Dir`: all but the last element of the path, cleaned. -/
def Dir (path : String) : String :=
  Clean (String.mk (path.data.reverse.dropWhile (fun c => !isPathSeparator c)).reverse)

/-- Go `filepath.Join`: joins the elements from the first non-empty one on with
the separator and cleans the result. -/
def Join : List String → String
  | [] => ""
  | e :: es => if e ≠ "" then Clean (String.intercalate "/" (e :: es)) else Join es

end filepath

/-- Go slice expression `s[i:]` on a string: a run-time panic (`none`) when
`i > len(s)`. -/
def sliceFrom (s : String) (i : Nat) : Option String :=
  if i ≤ s.data.length then some (String.mk (s.data.drop i)) else none

/-- Go slice expression `s[:j]` on a string: a run-time panic (`none`) when
`j < 0` or `j > len(s)`. -/
def sliceTo (s : String) (j : Int) : Option String :=
  if 0 ≤ j ∧ j ≤ s.data.length then some (String.mk (s.data.take j.toNat)) else none

/-! ## Data model (`types.go`, `client.go`) -/

/-- A scalar value of a metadata map (`map[string]interface{}` of options such as
`quality`, `aspect_ratio`, `resize_width`). -/
inductive Scalar where
  | str (s : String)
  | int (n : Int)
  | bool (b : Bool)
  deriving DecidableEq, Repr

/-- A metadata map; Go's `nil` map is `none` where the type is optional. -/
abbrev Metadata := List (String × Scalar)

/-- A value of an event payload or of a JSON request body. -/
inductive Value where
  | str (s : String)
  | int (n : Int)
  | metadata (m : Metadata)
  deriving DecidableEq, Repr

/-- The `map[string]interface{}` handed to event callbacks and to `json.Marshal`. -/
abbrev Payload := List (String × Value)

/-- Type `UploadURLResponse` of `types.go`. -/
structure UploadURLResponse where
  JobID : String
  UploadURL : String
  deriving DecidableEq, Repr

/-- Type `Job` of `types.go`. -/
structure Job where
  ID : String
  Status : String
  OriginalFilename : String
  SourceFormat : String
  TargetFormat : String
  DownloadURL : String
  ProcessingTimeMs : Int
  Error : String
  CreatedAt : String
  CompletedAt : String
  Metadata : Option Metadata
  deriving DecidableEq, Repr

/-- Type `Account` of `types.go`. -/
structure Account where
  ID : String
  Email : String
  Name : String
  Plan : String
  Points : Int
  DailyConversionsRemaining : Int
  TotalConversions : Int
  deriving DecidableEq, Repr

/-- Type `ClientConfig`. `PollInterval` is a `time.Duration`, in nanoseconds. -/
structure ClientConfig where
  APIKey : String
  BaseURL : String
  MaxAttempts : Int
  PollInterval : Int
  deriving DecidableEq, Repr

/-- Type `EventCallback`: a handler receives the payload; what it does is a
transformation of the caller-side state `σ`. -/
abbrev EventCallback (σ : Type) := Payload → σ → σ

/-- Type `Client`. The Go map `eventCallbacks` is a finite map from event names to
slices of callbacks: `none` is an absent key. The `httpClient` field (a
`http.Client` with a 60 s timeout) is represented by `Env.roundTrip`. -/
structure Client (σ : Type) where
  apiKey : String
  baseURL : String
  maxAttempts : Int
  pollInterval : Int
  eventCallbacks : String → Option (List (EventCallback σ))

/-- Type `ConvertFileOptions`. -/
structure ConvertFileOptions where
  InputPath : String
  TargetFormat : String
  OutputPath : String
  ConversionMetadata : Option Metadata
  deriving DecidableEq, Repr

/-- Type `ConvertFileResult`. -/
structure ConvertFileResult where
  Success : Bool
  JobID : String
  InputPath : String
  OutputPath : String
  SourceFormat : String
  TargetFormat : String
  FileSize : Int
  ProcessingTime : Int
  DownloadURL : String
  Metadata : Option Metadata
  deriving DecidableEq, Repr

/-! ## The environment -/

/-- An HTTP request as built by the client. -/
structure Request where
  method : String
  url : String
  headers : List (String × String)
  body : Option String
  contentLength : Int
  deriving DecidableEq, Repr

/-- Result of `httpClient.Do` / `http.Get`: a transport error, or a response
with its status code and body. -/
inductive Response where
  | failure (err : String)
  | reply (status : Int) (body : String)
  deriving DecidableEq, Repr

/-- One observable step of a run. -/
inductive Action where
  | event (name : String) (data : Payload)
  | http (req : Request) (res : Response)
  | sleep (duration : Int)
  deriving DecidableEq, Repr

/-- Everything the client calls outside the repository.

* `roundTrip n req`: what the network answers to `req` when `n` round trips
  have already been made in this run (so repeated identical requests, as in
  polling, may be answered differently each time);
* `newRequest method url`: the error of `http.NewRequest`, if any;
* `marshal`, `decodeUploadURL`, `decodeJob`, `decodeAccount`, `decodeJobs`:
  `encoding/json` (a `[]*Job` may hold nil pointers, hence `Option Job`);
* `stat path content`: what `os.Stat` reports for an existing `path` to which
  `content` was last written: an error, or the size in the `FileInfo`, which
  is the length of `content` for a regular file and may be anything else for
  other kinds of file (a device such as `/dev/null` reports 0);
* `openErr`, `fstatErr`, `mkdirAllErr`, `createErr`, `copyErr`: failures of
  `os.Open` on an existing file, `File.Stat`, `os.MkdirAll`, `os.Create` and
  `io.Copy`. -/
structure Env where
  roundTrip : Nat → Request → Response
  newRequest : String → String → Option String
  marshal : Payload → Except String String
  decodeUploadURL : String → Except String UploadURLResponse
  decodeJob : String → Except String Job
  decodeAccount : String → Except String Account
  decodeJobs : String → Except String (List (Option Job))
  stat : String → String → Except String Int
  openErr : String → Option String
  fstatErr : String → Option String
  mkdirAllErr : String → Option String
  createErr : String → Option String
  copyErr : String → String → Option String

/-- State threaded through a run: the state the handlers act on, the file
system (for each existing path the content last written to it), the ghost
trace and the number of HTTP round trips made so far. -/
structure World (σ : Type) where
  handlers : σ
  files : String → Option String
  trace : List Action
  roundTrips : Nat

/-- How a call ends: by a run-time panic or by returning. -/
inductive Outcome (α : Type) where
  | panicked (msg : String)
  | returned (r : Except String α)

/-- Number of bytes of a content (`len`; `FileInfo.Size` of a regular file). -/
def byteLen (content : String) : Int := content.utf8ByteSize

/-- Go `os.Stat`: the error for a missing file, else what the file system
reports for the existing one (`Env.stat`): an error or the size. -/
def osStat {σ : Type} (env : Env) (w : World σ) (path : String) : Except String Int :=
  match w.files path with
  | some content => env.stat path content
  | none => .error ("stat " ++ path ++ ": no such file or directory")

/-- One HTTP round trip (`c.httpClient.Do(req)`, resp. `http.Get`): asks the
environment, records the exchange in the trace. -/
def doRequest {σ : Type} (env : Env) (req : Request) (w : World σ) : World σ × Response :=
  let res := env.roundTrip w.roundTrips req
  ({ w with trace := w.trace ++ [Action.http req res], roundTrips := w.roundTrips + 1 }, res)

/-- Go `time.Sleep`: recorded in the trace. -/
def sleep {σ : Type} (d : Int) (w : World σ) : World σ :=
  { w with trace := w.trace ++ [Action.sleep d] }

/-! ## Client construction and the event registry -/

/-- Constant `DefaultAPIURL`. -/
def DefaultAPIURL : String := "https://api.convertorio.com"

/-- Constant `DefaultMaxAttempts`. -/
def DefaultMaxAttempts : Int := 120

/-- Constant `DefaultPollInterval = 2 * time.Second`, in nanoseconds. -/
def DefaultPollInterval : Int := 2 * 1000000000

/-- Function `NewClient`. -/
def NewClient {σ : Type} (config : ClientConfig) : Client σ :=
  let baseURL := if config.BaseURL = "" then DefaultAPIURL else config.BaseURL
  let maxAttempts := if config.MaxAttempts = 0 then DefaultMaxAttempts else config.MaxAttempts
  let pollInterval := if config.PollInterval = 0 then DefaultPollInterval else config.PollInterval
  { apiKey := config.APIKey
    baseURL := baseURL
    maxAttempts := maxAttempts
    pollInterval := pollInterval
    eventCallbacks := fun _ => none }

/-- Method `Client.On`: `c.eventCallbacks[event] = append(c.eventCallbacks[event], callback)`. -/
def Client.On {σ : Type} (c : Client σ) (event : String) (callback : EventCallback σ) :
    Client σ :=
  { c with
    eventCallbacks := fun k =>
      if k = event then some ((c.eventCallbacks event).getD [] ++ [callback])
      else c.eventCallbacks k }

/-- Method `Client.emit`: runs, in slice order, every callback stored under `event`.
The call itself is recorded in the trace. -/
def Client.emit {σ : Type} (c : Client σ) (event : String) (data : Payload) (w : World σ) :
    World σ :=
  let w := { w with trace := w.trace ++ [Action.event event data] }
  match c.eventCallbacks event with
  | some callbacks => { w with handlers := callbacks.foldl (fun s callback => callback data s) w.handlers }
  | none => w

/-! ## Service calls -/

/-- Go `fmt.Errorf("API error (status %d): %s", status, body)`. -/
def apiError (status : Int) (body : String) : String :=
  "API error (status " ++ toString status ++ "): " ++ body

/-- The JSON object built by `requestUploadURL`: `file_name`, `target_format`
and, when the metadata map is not nil, `conversion_metadata`. -/
def uploadURLBody (fileName targetFormat : String) (metadata : Option Metadata) : Payload :=
  let reqBody : Payload :=
    [("file_name", Value.str fileName), ("target_format", Value.str targetFormat)]
  match metadata with
  | some m => reqBody ++ [("conversion_metadata", Value.metadata m)]
  | none => reqBody

/-- The request sent by `requestUploadURL`. -/
def uploadURLRequest {σ : Type} (c : Client σ) (body : String) : Request :=
  { method := "POST"
    url := c.baseURL ++ "/api/upload/request-url"
    headers := [("Authorization", "Bearer " ++ c.apiKey), ("Content-Type", "application/json")]
    body := some body
    contentLength := byteLen body }

/-- Method `Client.requestUploadURL`. -/
def requestUploadURL {σ : Type} (env : Env) (c : Client σ) (fileName targetFormat : String)
    (metadata : Option Metadata) (w : World σ) : World σ × Except String UploadURLResponse :=
  match env.marshal (uploadURLBody fileName targetFormat metadata) with
  | .error err => (w, .error ("failed to marshal request: " ++ err))
  | .ok body =>
    match env.newRequest "POST" (c.baseURL ++ "/api/upload/request-url") with
    | some err => (w, .error ("failed to create request: " ++ err))
    | none =>
      match doRequest env (uploadURLRequest c body) w with
      | (w, .failure err) => (w, .error ("HTTP request failed: " ++ err))
      | (w, .reply status respBody) =>
        if status ≠ 200 then (w, .error (apiError status respBody))
        else
          match env.decodeUploadURL respBody with
          | .error err => (w, .error ("failed to decode response: " ++ err))
          | .ok result => (w, .ok result)

/-- The request sent by `uploadToS3`: the file content as body, its size as
`ContentLength`, no `Authorization` header. -/
def uploadRequest (uploadURL content : String) : Request :=
  { method := "PUT"
    url := uploadURL
    headers := [("Content-Type", "application/octet-stream")]
    body := some content
    contentLength := byteLen content }

/-- Method `Client.uploadToS3`; `none` is Go's `nil` error. -/
def uploadToS3 {σ : Type} (env : Env) (uploadURL filePath : String) (w : World σ) :
    World σ × Option String :=
  match w.files filePath, env.openErr filePath with
  | none, _ =>
    (w, some ("failed to open file: " ++ "open " ++ filePath ++ ": no such file or directory"))
  | some _, some err => (w, some ("failed to open file: " ++ err))
  | some content, none =>
    match env.fstatErr filePath with
    | some err => (w, some ("failed to stat file: " ++ err))
    | none =>
      match env.newRequest "PUT" uploadURL with
      | some err => (w, some ("failed to create upload request: " ++ err))
      | none =>
        match doRequest env (uploadRequest uploadURL content) w with
        | (w, .failure err) => (w, some ("upload failed: " ++ err))
        | (w, .reply status respBody) =>
          if status ≠ 200 ∧ status ≠ 204 then
            (w, some ("upload failed (status " ++ toString status ++ "): " ++ respBody))
          else (w, none)

/-- The request sent by `confirmUpload`. -/
def confirmRequest {σ : Type} (c : Client σ) (body : String) : Request :=
  { method := "POST"
    url := c.baseURL ++ "/api/upload/confirm"
    headers := [("Authorization", "Bearer " ++ c.apiKey), ("Content-Type", "application/json")]
    body := some body
    contentLength := byteLen body }

/-- Method `Client.confirmUpload`; `none` is Go's `nil` error. -/
def confirmUpload {σ : Type} (env : Env) (c : Client σ) (jobID : String) (w : World σ) :
    World σ × Option String :=
  let reqBody : Payload := [("job_id", Value.str jobID)]
  match env.marshal reqBody with
  | .error err => (w, some ("failed to marshal request: " ++ err))
  | .ok body =>
    match env.newRequest "POST" (c.baseURL ++ "/api/upload/confirm") with
    | some err => (w, some ("failed to create request: " ++ err))
    | none =>
      match doRequest env (confirmRequest c body) w with
      | (w, .failure err) => (w, some ("HTTP request failed: " ++ err))
      | (w, .reply status respBody) =>
        if status ≠ 200 then (w, some (apiError status respBody))
        else (w, none)

/-- The request built by `GetJob`. -/
def getJobRequest {σ : Type} (c : Client σ) (jobID : String) : Request :=
  { method := "GET"
    url := c.baseURL ++ "/api/jobs/" ++ jobID
    headers := [("Authorization", "Bearer " ++ c.apiKey)]
    body := none
    contentLength := 0 }

/-- Method `Client.GetJob`. -/
def GetJob {σ : Type} (env : Env) (c : Client σ) (jobID : String) (w : World σ) :
    World σ × Except String Job :=
  match env.newRequest "GET" (c.baseURL ++ "/api/jobs/" ++ jobID) with
  | some err => (w, .error ("failed to create request: " ++ err))
  | none =>
    match doRequest env (getJobRequest c jobID) w with
    | (w, .failure err) => (w, .error ("HTTP request failed: " ++ err))
    | (w, .reply status respBody) =>
      if status ≠ 200 then (w, .error (apiError status respBody))
      else
        match env.decodeJob respBody with
        | .error err => (w, .error ("failed to decode response: " ++ err))
        | .ok job => (w, .ok job)

/-- Go `fmt.Errorf("conversion timeout after %d attempts", maxAttempts)`. -/
def timeoutError (maxAttempts : Int) : String :=
  "conversion timeout after " ++ toString maxAttempts ++ " attempts"

/-- Go `fmt.Errorf("conversion failed: %s", job.Error)`. -/
def failedError (jobError : String) : String :=
  "conversion failed: " ++ jobError

/-- The loop of `pollJobStatus`, entered at the loop head with the counter
`attempt`. The first argument bounds the number of times the loop head is
evaluated; `pollJobStatus` passes a bound that is never exhausted
(`pollLoop_fuel`), so the first equation is not reached from it. -/
def pollLoop {σ : Type} (env : Env) (c : Client σ) (jobID : String) :
    Nat → Int → World σ → World σ × Except String Job
  | 0, _, w => (w, .error (timeoutError c.maxAttempts))
  | fuel + 1, attempt, w =>
    if attempt ≤ c.maxAttempts then
      let w := c.emit "status"
        [("status", Value.str "polling"), ("attempt", Value.int attempt),
         ("max_attempts", Value.int c.maxAttempts)] w
      match GetJob env c jobID w with
      | (w, .error err) => (w, .error err)
      | (w, .ok job) =>
        if job.Status = "completed" then (w, .ok job)
        else if job.Status = "failed" then (w, .error (failedError job.Error))
        else pollLoop env c jobID fuel (attempt + 1) (sleep c.pollInterval w)
    else (w, .error (timeoutError c.maxAttempts))

/-- Method `Client.pollJobStatus`: `for attempt := 1; attempt <= c.maxAttempts; attempt++`. -/
def pollJobStatus {σ : Type} (env : Env) (c : Client σ) (jobID : String) (w : World σ) :
    World σ × Except String Job :=
  pollLoop env c jobID (c.maxAttempts.toNat + 1) 1 w

/-- The request sent by `http.Get(url)`. -/
def downloadRequest (url : String) : Request :=
  { method := "GET", url := url, headers := [], body := none, contentLength := 0 }

/-- Method `Client.downloadFile`; `none` is Go's `nil` error. Any error of
`http.Get`, also one raised before the request is sent, is the `failure` answer
of the round trip. `os.Create` truncates the destination, `io.Copy` then
writes the whole response body; what a failed copy leaves in the file is not
modelled (the file stays as created). -/
def downloadFile {σ : Type} (env : Env) (url destPath : String) (w : World σ) :
    World σ × Option String :=
  match doRequest env (downloadRequest url) w with
  | (w, .failure err) => (w, some ("download failed: " ++ err))
  | (w, .reply status respBody) =>
    if status ≠ 200 then (w, some ("download failed with status: " ++ toString status))
    else
      match env.mkdirAllErr (filepath.Dir destPath) with
      | some err => (w, some ("failed to create directory: " ++ err))
      | none =>
        match env.createErr destPath with
        | some err => (w, some ("failed to create file: " ++ err))
        | none =>
          let w := { w with files := fun p => if p = destPath then some "" else w.files p }
          match env.copyErr destPath respBody with
          | some err => (w, some ("failed to write file: " ++ err))
          | none =>
            ({ w with files := fun p => if p = destPath then some respBody else w.files p }, none)

/-! ## The orchestration -/

/-- Payload of a `progress` event. -/
def progressData (step message : String) : Payload :=
  [("step", Value.str step), ("message", Value.str message)]

/-- Payload of an `error` event: `{"error": err.Error()}`. -/
def errorData (err : String) : Payload := [("error", Value.str err)]

/-- Method `Client.ConvertFile`. -/
def ConvertFile {σ : Type} (env : Env) (c : Client σ) (options : ConvertFileOptions)
    (w : World σ) : World σ × Outcome ConvertFileResult :=
  -- Validate input
  if c.apiKey = "" then (w, .returned (.error "API key is required"))
  else if options.InputPath = "" then (w, .returned (.error "input path is required"))
  else if options.TargetFormat = "" then (w, .returned (.error "target format is required"))
  else
    -- Check if input file exists
    match osStat env w options.InputPath with
    | .error err => (w, .returned (.error ("input file not found: " ++ err)))
    | .ok fileSize =>
      let fileName := filepath.Base options.InputPath
      -- Emit start event; the payload is built first: `filepath.Ext(fileName)[1:]`
      match sliceFrom (filepath.Ext fileName) 1 with
      | none => (w, .panicked "runtime error: slice bounds out of range [1:0]")
      | some sourceFormat =>
        let w := c.emit "start"
          [("file_name", Value.str fileName), ("source_format", Value.str sourceFormat),
           ("target_format", Value.str options.TargetFormat), ("file_size", Value.int fileSize)] w
        -- Step 1: Request upload URL
        let w := c.emit "progress"
          (progressData "requesting-upload-url" "Requesting upload URL from server") w
        match requestUploadURL env c fileName options.TargetFormat options.ConversionMetadata w with
        | (w, .error err) => (c.emit "error" (errorData err) w, .returned (.error err))
        | (w, .ok uploadData) =>
          -- Step 2: Upload file to S3
          let w := c.emit "progress" (progressData "uploading" "Uploading file to cloud storage") w
          match uploadToS3 env uploadData.UploadURL options.InputPath w with
          | (w, some err) => (c.emit "error" (errorData err) w, .returned (.error err))
          | (w, none) =>
            -- Step 3: Confirm upload
            let w := c.emit "progress"
              (progressData "confirming" "Confirming upload and starting conversion") w
            match confirmUpload env c uploadData.JobID w with
            | (w, some err) => (c.emit "error" (errorData err) w, .returned (.error err))
            | (w, none) =>
              -- Step 4: Poll for job completion
              let w := c.emit "progress"
                (progressData "converting" "Converting file (this may take a moment)") w
              match pollJobStatus env c uploadData.JobID w with
              | (w, .error err) => (c.emit "error" (errorData err) w, .returned (.error err))
              | (w, .ok job) =>
                -- Step 5: Download converted file
                let w := c.emit "progress" (progressData "downloading" "Downloading converted file") w
                let computed : Option String :=
                  if options.OutputPath = "" then
                    let dir := filepath.Dir options.InputPath
                    match sliceTo fileName
                        ((fileName.data.length : Int) - ((filepath.Ext fileName).data.length : Int)) with
                    | some base => some (filepath.Join [dir, base ++ "." ++ options.TargetFormat])
                    | none => none
                  else some options.OutputPath
                match computed with
                | none => (w, .panicked "runtime error: slice bounds out of range")
                | some outputPath =>
                  match downloadFile env job.DownloadURL outputPath w with
                  | (w, some err) => (c.emit "error" (errorData err) w, .returned (.error err))
                  | (w, none) =>
                    -- Get file size
                    let outputSize : Int :=
                      match osStat env w outputPath with
                      | .ok size => size
                      | .error _ => 0
                    let result : ConvertFileResult :=
                      { Success := true
                        JobID := job.ID
                        InputPath := options.InputPath
                        OutputPath := outputPath
                        SourceFormat := job.SourceFormat
                        TargetFormat := job.TargetFormat
                        FileSize := outputSize
                        ProcessingTime := job.ProcessingTimeMs
                        DownloadURL := job.DownloadURL
                        Metadata := job.Metadata }
                    -- Emit complete event
                    let w := c.emit "complete"
                      [("job_id", Value.str result.JobID), ("output_path", Value.str result.OutputPath),
                       ("processing_time", Value.int result.ProcessingTime),
                       ("file_size", Value.int result.FileSize)] w
                    (w, .returned (.ok result))

/-! ## Observations on traces and registrations -/

/-- The action is a status fetch: the HTTP round trip of `GetJob` for `jobID`. -/
def isStatusFetch {σ : Type} (c : Client σ) (jobID : String) : Action → Bool
  | .http req _ => decide (req = getJobRequest c jobID)
  | _ => false

/-- Number of status fetches for `jobID` recorded in a trace. -/
def statusFetches {σ : Type} (c : Client σ) (jobID : String) (t : List Action) : Nat :=
  t.countP (isStatusFetch c jobID)

/-- Answer of the `(i+1)`-th status fetch counted from the world `w`: what
`GetJob` returns once `i` further round trips have been made. -/
def nthFetch {σ : Type} (env : Env) (c : Client σ) (jobID : String) (w : World σ) (i : Nat) :
    Except String Job :=
  (GetJob env c jobID { w with roundTrips := w.roundTrips + i }).2

/-- The HTTP exchange recorded by an action, if it is one. -/
def Action.exchange : Action → Option (Request × Response)
  | .http req res => some (req, res)
  | _ => none

/-- The event recorded by an action, if it is one. -/
def Action.emitted : Action → Option (String × Payload)
  | .event name data => some (name, data)
  | _ => none

/-- The HTTP exchanges of a trace, in order. -/
def httpCalls (t : List Action) : List (Request × Response) := t.filterMap Action.exchange

/-- The events of a trace, in order. -/
def events (t : List Action) : List (String × Payload) := t.filterMap Action.emitted

/-- Names of the events of a trace, in order. -/
def eventNames (t : List Action) : List String := (events t).map Prod.fst

/-- The five steps of `ConvertFile` in source order: the `step` and `message`
fields of the `progress` event that opens each. -/
def stepTable : List (String × String) :=
  [("requesting-upload-url", "Requesting upload URL from server"),
   ("uploading", "Uploading file to cloud storage"),
   ("confirming", "Confirming upload and starting conversion"),
   ("converting", "Converting file (this may take a moment)"),
   ("downloading", "Downloading converted file")]

/-- The `step` fields of the `progress` events of a trace, in order. -/
def progressSteps (t : List Action) : List String :=
  (events t).filterMap fun ev =>
    match ev with
    | ("progress", ("step", Value.str step) :: _) => some step
    | _ => none

/-- A client after a sequence of `On` registrations (event name, callback). -/
def registerAll {σ : Type} (c : Client σ) (regs : List (String × EventCallback σ)) : Client σ :=
  regs.foldl (fun c r => c.On r.1 r.2) c

/-- A handler that appends its tag and the payload it received to a call log. -/
def logCall (tag : Nat) : EventCallback (List (Nat × Payload)) :=
  fun data log => log ++ [(tag, data)]


/-! ## Concrete runs used as examples -/

/-- A job as the example service reports it: only the status varies. -/
def demoJob (status : String) : Job :=
  { ID := "job-1", Status := status, OriginalFilename := "photo.png", SourceFormat := "png",
    TargetFormat := "jpg", DownloadURL := "https://cdn.example/job-1.jpg",
    ProcessingTimeMs := 42, Error := "unsupported image", CreatedAt := "2024-01-01T00:00:00Z",
    CompletedAt := "", Metadata := none }

/-- An example service answering the `n`-th round trip with status 200 and the
`n`-th body of the script (`"processing"` beyond its end); a job body is the
job's status; no local operation fails. -/
def scriptEnv (bodies : List String) : Env :=
  { roundTrip := fun n _ => .reply 200 (bodies.getD n "processing")
    newRequest := fun _ _ => none
    marshal := fun _ => .ok "{}"
    decodeUploadURL := fun _ => .ok { JobID := "job-1", UploadURL := "https://s3.example/slot" }
    decodeJob := fun body => .ok (demoJob body)
    decodeAccount := fun _ =>
      .ok { ID := "acct-1", Email := "a@example.org", Name := "A", Plan := "free",
            Points := 10, DailyConversionsRemaining := 5, TotalConversions := 1 }
    decodeJobs := fun body => .ok [some (demoJob body)]
    stat := fun _ content => .ok (byteLen content)
    openErr := fun _ => none
    fstatErr := fun _ => none
    mkdirAllErr := fun _ => none
    createErr := fun _ => none
    copyErr := fun _ _ => none }

/-- An example client built by `NewClient` with the given attempt budget. -/
def demoClient (maxAttempts : Int) : Client Unit :=
  NewClient { APIKey := "key", BaseURL := "", MaxAttempts := maxAttempts, PollInterval := 0 }

/-- An initial world whose only file is `path`, with nothing traced yet. -/
def demoWorld (path : String) : World Unit :=
  { handlers := (), files := fun p => if p = path then some "PNGDATA" else none,
    trace := [], roundTrips := 0 }


/-! ## Decomposition of `ConvertFile` into its steps

The functions below are the tails of the body of `ConvertFile`, cut at the
comments `Step 2` to `Step 5` of the source; `ConvertFile_eq` states that
`ConvertFile` is their composition. -/

section steps
variable {σ : Type}

/-- The world after one HTTP round trip with request `req`. -/
def afterRoundTrip (env : Env) (req : Request) (w : World σ) : World σ :=
  { w with
    trace := w.trace ++ [Action.http req (env.roundTrip w.roundTrips req)]
    roundTrips := w.roundTrips + 1 }

/-- How `GetJob` reads the answer of its round trip. -/
def jobOfResponse (env : Env) : Response → Except String Job
  | .failure err => .error ("HTTP request failed: " ++ err)
  | .reply status respBody =>
    if status ≠ 200 then .error (apiError status respBody)
    else
      match env.decodeJob respBody with
      | .error err => .error ("failed to decode response: " ++ err)
      | .ok job => .ok job

/-- The payload of the `status` event of one loop iteration. -/
def statusData (c : Client σ) (attempt : Int) : Payload :=
  [("status", Value.str "polling"), ("attempt", Value.int attempt),
   ("max_attempts", Value.int c.maxAttempts)]

/-- What a run of the polling loop adds to the trace: `status` events, status
fetches and sleeps only. -/
def isPollAction (c : Client σ) (jobID : String) : Action → Bool
  | .event name _ => decide (name = "status")
  | .http req _ => decide (req = getJobRequest c jobID)
  | .sleep _ => true

/-- The output path computed in step 5; `none` if slicing the file name panics. -/
def computeOutputPath (options : ConvertFileOptions) (fileName : String) : Option String :=
  if options.OutputPath = "" then
    let dir := filepath.Dir options.InputPath
    match sliceTo fileName
        ((fileName.data.length : Int) - ((filepath.Ext fileName).data.length : Int)) with
    | some base => some (filepath.Join [dir, base ++ "." ++ options.TargetFormat])
    | none => none
  else some options.OutputPath

/-- The result built from the completed job, the output path and the size of
the written file. -/
def resultOf (options : ConvertFileOptions) (job : Job) (outputPath : String)
    (outputSize : Int) : ConvertFileResult :=
  { Success := true
    JobID := job.ID
    InputPath := options.InputPath
    OutputPath := outputPath
    SourceFormat := job.SourceFormat
    TargetFormat := job.TargetFormat
    FileSize := outputSize
    ProcessingTime := job.ProcessingTimeMs
    DownloadURL := job.DownloadURL
    Metadata := job.Metadata }

/-- The payload of the `complete` event. -/
def completeData (result : ConvertFileResult) : Payload :=
  [("job_id", Value.str result.JobID), ("output_path", Value.str result.OutputPath),
   ("processing_time", Value.int result.ProcessingTime),
   ("file_size", Value.int result.FileSize)]

/-- The size `ConvertFile` reads back for the written file: `0` when the
second `os.Stat` fails. -/
def statSize (env : Env) (w : World σ) (outputPath : String) : Int :=
  match osStat env w outputPath with
  | .ok size => size
  | .error _ => 0

/-- The size `ConvertFile` takes for an output file at `path` holding
`content`: what `os.Stat` reports, `0` when it fails. -/
def sizeReported (env : Env) (path content : String) : Int :=
  match env.stat path content with
  | .ok size => size
  | .error _ => 0

/-- The body of `ConvertFile` from `Step 5` on. -/
def fromDownload (env : Env) (c : Client σ) (options : ConvertFileOptions) (fileName : String)
    (job : Job) (w : World σ) : World σ × Outcome ConvertFileResult :=
  let w := c.emit "progress" (progressData "downloading" "Downloading converted file") w
  match computeOutputPath options fileName with
  | none => (w, .panicked "runtime error: slice bounds out of range")
  | some outputPath =>
    match downloadFile env job.DownloadURL outputPath w with
    | (w, some err) => (c.emit "error" (errorData err) w, .returned (.error err))
    | (w, none) =>
      let result := resultOf options job outputPath (statSize env w outputPath)
      (c.emit "complete" (completeData result) w, .returned (.ok result))

/-- The body of `ConvertFile` from `Step 4` on. -/
def fromPoll (env : Env) (c : Client σ) (options : ConvertFileOptions) (fileName : String)
    (uploadData : UploadURLResponse) (w : World σ) : World σ × Outcome ConvertFileResult :=
  let w := c.emit "progress"
    (progressData "converting" "Converting file (this may take a moment)") w
  match pollJobStatus env c uploadData.JobID w with
  | (w, .error err) => (c.emit "error" (errorData err) w, .returned (.error err))
  | (w, .ok job) => fromDownload env c options fileName job w

/-- The body of `ConvertFile` from `Step 3` on. -/
def fromConfirm (env : Env) (c : Client σ) (options : ConvertFileOptions) (fileName : String)
    (uploadData : UploadURLResponse) (w : World σ) : World σ × Outcome ConvertFileResult :=
  let w := c.emit "progress"
    (progressData "confirming" "Confirming upload and starting conversion") w
  match confirmUpload env c uploadData.JobID w with
  | (w, some err) => (c.emit "error" (errorData err) w, .returned (.error err))
  | (w, none) => fromPoll env c options fileName uploadData w

/-- The body of `ConvertFile` from `Step 2` on. -/
def fromUpload (env : Env) (c : Client σ) (options : ConvertFileOptions) (fileName : String)
    (uploadData : UploadURLResponse) (w : World σ) : World σ × Outcome ConvertFileResult :=
  let w := c.emit "progress" (progressData "uploading" "Uploading file to cloud storage") w
  match uploadToS3 env uploadData.UploadURL options.InputPath w with
  | (w, some err) => (c.emit "error" (errorData err) w, .returned (.error err))
  | (w, none) => fromConfirm env c options fileName uploadData w

/-- The body of `ConvertFile` from `Step 1` on, after the `start` event. -/
def fromRequest (env : Env) (c : Client σ) (options : ConvertFileOptions) (fileName : String)
    (w : World σ) : World σ × Outcome ConvertFileResult :=
  let w := c.emit "progress"
    (progressData "requesting-upload-url" "Requesting upload URL from server") w
  match requestUploadURL env c fileName options.TargetFormat options.ConversionMetadata w with
  | (w, .error err) => (c.emit "error" (errorData err) w, .returned (.error err))
  | (w, .ok uploadData) => fromUpload env c options fileName uploadData w

/-- The payload of the `start` event. -/
def startData (options : ConvertFileOptions) (fileName sourceFormat : String) (fileSize : Int) :
    Payload :=
  [("file_name", Value.str fileName), ("source_format", Value.str sourceFormat),
   ("target_format", Value.str options.TargetFormat), ("file_size", Value.int fileSize)]

/-- A step that failed: it added no event and at most one HTTP exchange. -/
def QuietStep (w w1 : World σ) : Prop :=
  ∃ calls : List Action, w1.trace = w.trace ++ calls ∧ events calls = [] ∧
    (httpCalls calls).length ≤ 1

end steps


/-- The `progress` event that opens step `i` (0-based) of `ConvertFile`. -/
def progressEvent (i : Nat) : Action :=
  Action.event "progress"
    (progressData (stepTable.getD i ("", "")).1 (stepTable.getD i ("", "")).2)

/-- Shape of the trace added by a run, from the opening of step `s` on, that
fails in step `i`: the steps `s..i-1` were opened in order (`front`), step `i`
was opened and did `calls`, and the `error` event with the returned message is
the last action. Nothing in `calls` opens a step; unless the failing step is
the polling step (`i = 3`), `calls` holds at most one HTTP exchange. -/
def FailedAt (s i : Nat) (e : String) (added : List Action) : Prop :=
  ∃ front calls : List Action,
    added = front ++ [progressEvent i] ++ calls ++ [Action.event "error" (errorData e)] ∧
    progressSteps front = ((stepTable.drop s).take (i - s)).map Prod.fst ∧
    (∀ n ∈ eventNames front, n = "progress" ∨ n = "status") ∧
    (∀ n ∈ eventNames calls, n = "status") ∧
    (i ≠ 3 → (httpCalls calls).length ≤ 1)


section steps
variable {σ : Type}

/-- A run `r` that, continued from world `w` at step 5 with the completed
`job`, succeeds: the file is downloaded to the computed path and `complete` is
emitted with the result. -/
def CompletedFromDownload (env : Env) (options : ConvertFileOptions) (fileName : String)
    (job : Job) (w : World σ) (r : World σ × Outcome ConvertFileResult) : Prop :=
  ∃ outputPath content,
    computeOutputPath options fileName = some outputPath ∧
    env.roundTrip w.roundTrips (downloadRequest job.DownloadURL) = .reply 200 content ∧
    r.2 = .returned (.ok (resultOf options job outputPath (sizeReported env outputPath content))) ∧
    r.1.trace = w.trace ++
      [progressEvent 4,
       Action.http (downloadRequest job.DownloadURL) (.reply 200 content),
       Action.event "complete"
         (completeData (resultOf options job outputPath (sizeReported env outputPath content)))] ∧
    r.1.files outputPath = some content

/-- A run that, continued from `w` at step 4, succeeds: the polling ends with a
fetch answered by a job whose status is `completed`. -/
def CompletedFromPoll (env : Env) (c : Client σ) (options : ConvertFileOptions)
    (fileName : String) (uploadData : UploadURLResponse) (w : World σ)
    (r : World σ × Outcome ConvertFileResult) : Prop :=
  ∃ (front : List Action) (jobBody : String) (job : Job) (w1 : World σ),
    (∀ a ∈ front, isPollAction c uploadData.JobID a = true) ∧
    env.decodeJob jobBody = .ok job ∧ job.Status = "completed" ∧
    w1.trace = w.trace ++ [progressEvent 3] ++ front ++
      [Action.http (getJobRequest c uploadData.JobID) (.reply 200 jobBody)] ∧
    CompletedFromDownload env options fileName job w1 r

/-- A run that, continued from `w` at step 3, succeeds. -/
def CompletedFromConfirm (env : Env) (c : Client σ) (options : ConvertFileOptions)
    (fileName : String) (uploadData : UploadURLResponse) (w : World σ)
    (r : World σ × Outcome ConvertFileResult) : Prop :=
  ∃ (body respBody : String) (w1 : World σ),
    env.marshal [("job_id", Value.str uploadData.JobID)] = .ok body ∧
    w1.trace = w.trace ++
      [progressEvent 2, Action.http (confirmRequest c body) (.reply 200 respBody)] ∧
    CompletedFromPoll env c options fileName uploadData w1 r

/-- A run that, continued from `w` at step 2, succeeds. -/
def CompletedFromUpload (env : Env) (c : Client σ) (options : ConvertFileOptions)
    (fileName : String) (uploadData : UploadURLResponse) (w : World σ)
    (r : World σ × Outcome ConvertFileResult) : Prop :=
  ∃ (content : String) (status : Int) (respBody : String) (w1 : World σ),
    w.files options.InputPath = some content ∧ (status = 200 ∨ status = 204) ∧
    w1.trace = w.trace ++
      [progressEvent 1,
       Action.http (uploadRequest uploadData.UploadURL content) (.reply status respBody)] ∧
    CompletedFromConfirm env c options fileName uploadData w1 r

/-- A run that, continued from `w` at step 1, succeeds. -/
def CompletedFromRequest (env : Env) (c : Client σ) (options : ConvertFileOptions)
    (fileName : String) (w : World σ) (r : World σ × Outcome ConvertFileResult) : Prop :=
  ∃ (body respBody : String) (uploadData : UploadURLResponse) (w1 : World σ),
    env.marshal (uploadURLBody fileName options.TargetFormat options.ConversionMetadata) =
      .ok body ∧
    env.decodeUploadURL respBody = .ok uploadData ∧
    w1.trace = w.trace ++
      [progressEvent 0, Action.http (uploadURLRequest c body) (.reply 200 respBody)] ∧
    w1.files = w.files ∧
    CompletedFromUpload env c options fileName uploadData w1 r

/-- A run `r` that fails in step `i`, having been continued from `w` at step `s`. -/
def FailedFrom (s : Nat) (w : World σ) (r : World σ × Outcome ConvertFileResult) : Prop :=
  ∃ (e : String) (i : Nat) (added : List Action),
    s ≤ i ∧ i < 5 ∧ r.2 = .returned (.error e) ∧ r.1.trace = w.trace ++ added ∧
    FailedAt s i e added

end steps


/-- Conversion options of the examples: convert `path` to `jpg`, output path
left to the client. -/
def demoOptions (path : String) : ConvertFileOptions :=
  { InputPath := path, TargetFormat := "jpg", OutputPath := "", ConversionMetadata := none }

/-- The script of a service that accepts the request, the upload and the
confirmation, reports the job completed at the first status fetch and serves
the converted file. -/
def happyScript : List String := ["{}", "", "{}", "completed", "JPEGDATA"]

/-- The script of a service that accepts the request, the upload and the
confirmation and reports the job failed at the first status fetch. -/
def failedScript : List String := ["{}", "", "{}", "failed"]

/-- An initial world for handlers that log their calls, without files. -/
def logWorld : World (List (Nat × Payload)) :=
  { handlers := [], files := fun _ => none, trace := [], roundTrips := 0 }


section steps
variable {σ : Type}

/-- The world in which step 1 (request upload URL) runs: after the `start`
event and the `progress` event of the step. -/
def atRequest (c : Client σ) (options : ConvertFileOptions) (sourceFormat : String)
    (fileSize : Int) (w : World σ) : World σ :=
  c.emit "progress" (progressData "requesting-upload-url" "Requesting upload URL from server")
    (c.emit "start"
      (startData options (filepath.Base options.InputPath) sourceFormat fileSize) w)

/-- The world in which step 2 (upload) runs, `w1` being the world left by step 1. -/
def atUpload (c : Client σ) (w1 : World σ) : World σ :=
  c.emit "progress" (progressData "uploading" "Uploading file to cloud storage") w1

/-- The world in which step 3 (confirm) runs, `w2` being the world left by step 2. -/
def atConfirm (c : Client σ) (w2 : World σ) : World σ :=
  c.emit "progress" (progressData "confirming" "Confirming upload and starting conversion") w2

/-- The world in which step 4 (poll) runs, `w3` being the world left by step 3. -/
def atPoll (c : Client σ) (w3 : World σ) : World σ :=
  c.emit "progress" (progressData "converting" "Converting file (this may take a moment)") w3

/-- The world in which step 5 (download) runs, `w4` being the world left by step 4. -/
def atDownload (c : Client σ) (w4 : World σ) : World σ :=
  c.emit "progress" (progressData "downloading" "Downloading converted file") w4

/-- The run `r`, started in world `w`, stops with the failure `e` of a step
that left the world `wk`: `r` returns the error `e` and no result; its final
world is `wk` followed by the `error` event carrying `e` and nothing else (no
later step runs); over the whole run the `error` event is emitted exactly once
and `complete` never. -/
def StopsAt (c : Client σ) (w wk : World σ) (e : String)
    (r : World σ × Outcome ConvertFileResult) : Prop :=
  r.2 = .returned (.error e) ∧
  r.1 = c.emit "error" (errorData e) wk ∧
  r.1.trace = wk.trace ++ [Action.event "error" [("error", Value.str e)]] ∧
  (eventNames r.1.trace).count "error" = (eventNames w.trace).count "error" + 1 ∧
  (eventNames r.1.trace).count "complete" = (eventNames w.trace).count "complete"

end steps


/-- Rendering of a value in the bodies of the checking example service. -/
def renderValue : Value → String
  | .str s => s
  | .int n => toString n
  | .metadata m => toString m.length

/-- Rendering of a JSON object in the bodies of the checking example service:
`key=value;` for each field, in order. -/
def renderPayload : Payload → String
  | [] => ""
  | (key, value) :: rest => key ++ "=" ++ renderValue value ++ ";" ++ renderPayload rest

/-- An example service that looks at what it is asked. It hands out the slot
`https://s3.example/slot` and the job `job-1` to a `POST` on
`/api/upload/request-url` naming the file `fileName` and `jpg`, accepts a `PUT` of the
bytes `PNGDATA` to that slot, accepts a `POST` on `/api/upload/confirm` naming
`job-1`, reports `job-1` completed to a `GET` on `/api/jobs/job-1`, serves
`JPEGDATA` to a `GET` of `https://cdn.example/job-1.jpg`, and answers 404 to
anything else. Files are regular, except `/dev/null`, whose size is 0. -/
def checkingEnv (fileName : String) : Env :=
  { roundTrip := fun _ req =>
      if req.method = "POST" ∧ req.url = "https://api.convertorio.com/api/upload/request-url" ∧
          req.body = some ("file_name=" ++ fileName ++ ";target_format=jpg;") then
        .reply 200 "slot"
      else if req.method = "PUT" ∧ req.url = "https://s3.example/slot" ∧
          req.body = some "PNGDATA" then .reply 200 ""
      else if req.method = "POST" ∧ req.url = "https://api.convertorio.com/api/upload/confirm" ∧
          req.body = some "job_id=job-1;" then .reply 200 "{}"
      else if req.method = "GET" ∧ req.url = "https://api.convertorio.com/api/jobs/job-1" then
        .reply 200 "completed"
      else if req.method = "GET" ∧ req.url = "https://cdn.example/job-1.jpg" then
        .reply 200 "JPEGDATA"
      else .reply 404 "not found"
    newRequest := fun _ _ => none
    marshal := fun payload => .ok (renderPayload payload)
    decodeUploadURL := fun _ => .ok { JobID := "job-1", UploadURL := "https://s3.example/slot" }
    decodeJob := fun body => .ok (demoJob body)
    decodeAccount := fun _ => .error "not an account"
    decodeJobs := fun _ => .error "not a list"
    stat := fun path content => if path = "/dev/null" then .ok 0 else .ok (byteLen content)
    openErr := fun _ => none
    fstatErr := fun _ => none
    mkdirAllErr := fun _ => none
    createErr := fun _ => none
    copyErr := fun _ _ => none }

/-- Conversion options of the examples with an explicit output path. -/
def demoOptionsTo (path outputPath : String) : ConvertFileOptions :=
  { InputPath := path, TargetFormat := "jpg", OutputPath := outputPath,
    ConversionMetadata := none }


section steps
variable {σ : Type}

theorem ConvertFile_eq (env : Env) (c : Client σ) (options : ConvertFileOptions) (w : World σ) :
    ConvertFile env c options w =
      if c.apiKey = "" then (w, .returned (.error "API key is required"))
      else if options.InputPath = "" then (w, .returned (.error "input path is required"))
      else if options.TargetFormat = "" then (w, .returned (.error "target format is required"))
      else
        match osStat env w options.InputPath with
        | .error err => (w, .returned (.error ("input file not found: " ++ err)))
        | .ok fileSize =>
          match sliceFrom (filepath.Ext (filepath.Base options.InputPath)) 1 with
          | none => (w, .panicked "runtime error: slice bounds out of range [1:0]")
          | some sourceFormat =>
            fromRequest env c options (filepath.Base options.InputPath)
              (c.emit "start"
                (startData options (filepath.Base options.InputPath) sourceFormat fileSize) w) := by
  rfl

end steps


/-! ## Basic facts about the world-passing primitives -/

section primitives
variable {σ : Type}

@[simp] theorem emit_trace (c : Client σ) (e : String) (d : Payload) (w : World σ) :
    (c.emit e d w).trace = w.trace ++ [Action.event e d] := by
  unfold Client.emit; split <;> rfl

@[simp] theorem emit_roundTrips (c : Client σ) (e : String) (d : Payload) (w : World σ) :
    (c.emit e d w).roundTrips = w.roundTrips := by
  unfold Client.emit; split <;> rfl

@[simp] theorem emit_files (c : Client σ) (e : String) (d : Payload) (w : World σ) :
    (c.emit e d w).files = w.files := by
  unfold Client.emit; split <;> rfl

@[simp] theorem sleep_trace (d : Int) (w : World σ) :
    (sleep d w).trace = w.trace ++ [Action.sleep d] := rfl

@[simp] theorem sleep_roundTrips (d : Int) (w : World σ) :
    (sleep d w).roundTrips = w.roundTrips := rfl

@[simp] theorem sleep_files (d : Int) (w : World σ) : (sleep d w).files = w.files := rfl

@[simp] theorem afterRoundTrip_trace (env : Env) (req : Request) (w : World σ) :
    (afterRoundTrip env req w).trace =
      w.trace ++ [Action.http req (env.roundTrip w.roundTrips req)] := rfl

@[simp] theorem afterRoundTrip_roundTrips (env : Env) (req : Request) (w : World σ) :
    (afterRoundTrip env req w).roundTrips = w.roundTrips + 1 := rfl

@[simp] theorem afterRoundTrip_files (env : Env) (req : Request) (w : World σ) :
    (afterRoundTrip env req w).files = w.files := rfl

theorem doRequest_eq (env : Env) (req : Request) (w : World σ) :
    doRequest env req w = (afterRoundTrip env req w, env.roundTrip w.roundTrips req) := rfl

theorem GetJob_eq (env : Env) (c : Client σ) (jobID : String) (w : World σ) :
    GetJob env c jobID w =
      match env.newRequest "GET" (c.baseURL ++ "/api/jobs/" ++ jobID) with
      | some err => (w, .error ("failed to create request: " ++ err))
      | none =>
        (afterRoundTrip env (getJobRequest c jobID) w,
          jobOfResponse env (env.roundTrip w.roundTrips (getJobRequest c jobID))) := by
  unfold GetJob
  cases env.newRequest "GET" (c.baseURL ++ "/api/jobs/" ++ jobID) with
  | some err => rfl
  | none =>
    simp only [doRequest_eq]
    cases env.roundTrip w.roundTrips (getJobRequest c jobID) with
    | failure err => rfl
    | reply status respBody =>
      simp only [jobOfResponse]
      split
      · rfl
      · cases env.decodeJob respBody <;> rfl

theorem GetJob_world (env : Env) (c : Client σ) (jobID : String) (w : World σ) :
    (GetJob env c jobID w).1 = w ∨
      (GetJob env c jobID w).1 = afterRoundTrip env (getJobRequest c jobID) w := by
  rw [GetJob_eq]
  cases env.newRequest "GET" (c.baseURL ++ "/api/jobs/" ++ jobID) with
  | some err => left; rfl
  | none => right; rfl

theorem jobOfResponse_ok (env : Env) (res : Response) (job : Job)
    (h : jobOfResponse env res = .ok job) :
    ∃ body, res = .reply 200 body ∧ env.decodeJob body = .ok job := by
  cases res with
  | failure err => simp [jobOfResponse] at h
  | reply status respBody =>
    simp only [jobOfResponse] at h
    split at h
    · simp at h
    · rename_i hst
      have hst : status = 200 := by simpa using hst
      subst hst
      cases hdec : env.decodeJob respBody with
      | error err => rw [hdec] at h; simp at h
      | ok j =>
        rw [hdec] at h
        simp only [Except.ok.injEq] at h
        subst h
        exact ⟨respBody, rfl, hdec⟩

theorem GetJob_ok (env : Env) (c : Client σ) (jobID : String) (w : World σ) (job : Job)
    (h : (GetJob env c jobID w).2 = .ok job) :
    (GetJob env c jobID w).1 = afterRoundTrip env (getJobRequest c jobID) w ∧
    ∃ body, env.roundTrip w.roundTrips (getJobRequest c jobID) = .reply 200 body ∧
      env.decodeJob body = .ok job := by
  rw [GetJob_eq] at h ⊢
  cases hreq : env.newRequest "GET" (c.baseURL ++ "/api/jobs/" ++ jobID) with
  | some err => rw [hreq] at h; simp at h
  | none =>
    rw [hreq] at h
    exact ⟨rfl, jobOfResponse_ok env _ job h⟩

theorem GetJob_result_congr (env : Env) (c : Client σ) (jobID : String) (w v : World σ)
    (h : v.roundTrips = w.roundTrips) :
    (GetJob env c jobID v).2 = (GetJob env c jobID w).2 := by
  rw [GetJob_eq, GetJob_eq, h]
  cases env.newRequest "GET" (c.baseURL ++ "/api/jobs/" ++ jobID) <;> rfl

theorem GetJob_snd (env : Env) (c : Client σ) (jobID : String) (w : World σ) (i : Nat)
    (v : World σ) (h : v.roundTrips = w.roundTrips + i) :
    (GetJob env c jobID v).2 = nthFetch env c jobID w i :=
  GetJob_result_congr env c jobID _ v h

end primitives


/-! ## The polling loop -/

section polling
variable {σ : Type}

theorem pollLoop_succ (env : Env) (c : Client σ) (jobID : String) (fuel : Nat) (attempt : Int)
    (w : World σ) :
    pollLoop env c jobID (fuel + 1) attempt w =
      if attempt ≤ c.maxAttempts then
        match GetJob env c jobID (c.emit "status" (statusData c attempt) w) with
        | (w, .error err) => (w, .error err)
        | (w, .ok job) =>
          if job.Status = "completed" then (w, .ok job)
          else if job.Status = "failed" then (w, .error (failedError job.Error))
          else pollLoop env c jobID fuel (attempt + 1) (sleep c.pollInterval w)
      else (w, .error (timeoutError c.maxAttempts)) := rfl

/-- One iteration whose fetch succeeds with job `job`. -/
theorem pollLoop_step (env : Env) (c : Client σ) (jobID : String) (fuel : Nat) (attempt : Int)
    (w : World σ) (job : Job) (hle : attempt ≤ c.maxAttempts)
    (hjob : nthFetch env c jobID w 0 = .ok job) :
    pollLoop env c jobID (fuel + 1) attempt w =
      let w1 := afterRoundTrip env (getJobRequest c jobID) (c.emit "status" (statusData c attempt) w)
      if job.Status = "completed" then (w1, .ok job)
      else if job.Status = "failed" then (w1, .error (failedError job.Error))
      else pollLoop env c jobID fuel (attempt + 1) (sleep c.pollInterval w1) := by
  have hres : (GetJob env c jobID (c.emit "status" (statusData c attempt) w)).2 = .ok job := by
    rw [GetJob_snd env c jobID w 0 _ (by simp)]; exact hjob
  have hw := (GetJob_ok env c jobID _ job hres).1
  have hpair : GetJob env c jobID (c.emit "status" (statusData c attempt) w) =
      (afterRoundTrip env (getJobRequest c jobID) (c.emit "status" (statusData c attempt) w),
        .ok job) := Prod.ext hw hres
  rw [pollLoop_succ, if_pos hle, hpair]

/-- The bound handed over by `pollJobStatus` is never exhausted: any larger
bound gives the same run. -/
theorem pollLoop_fuel (env : Env) (c : Client σ) (jobID : String) :
    ∀ (f1 f2 : Nat) (attempt : Int) (w : World σ),
      (c.maxAttempts + 1 - attempt).toNat < f1 → (c.maxAttempts + 1 - attempt).toNat < f2 →
      pollLoop env c jobID f1 attempt w = pollLoop env c jobID f2 attempt w := by
  intro f1
  induction f1 with
  | zero => intro f2 attempt w h1; omega
  | succ f1 ih =>
    intro f2 attempt w h1 h2
    cases f2 with
    | zero => omega
    | succ f2 =>
      rw [pollLoop_succ, pollLoop_succ]
      by_cases hle : attempt ≤ c.maxAttempts
      · rw [if_pos hle, if_pos hle]
        have e : ∀ v, pollLoop env c jobID f1 (attempt + 1) v =
            pollLoop env c jobID f2 (attempt + 1) v := fun v =>
          ih f2 (attempt + 1) v (by omega) (by omega)
        simp only [e]
      · rw [if_neg hle, if_neg hle]

end polling


section polling
variable {σ : Type}

theorem statusFetches_append (c : Client σ) (jobID : String) (t u : List Action) :
    statusFetches c jobID (t ++ u) = statusFetches c jobID t + statusFetches c jobID u := by
  simp [statusFetches, List.countP_append]

@[simp] theorem statusFetches_nil (c : Client σ) (jobID : String) :
    statusFetches c jobID [] = 0 := rfl

@[simp] theorem statusFetches_event (c : Client σ) (jobID : String) (e : String) (d : Payload)
    (t : List Action) :
    statusFetches c jobID (Action.event e d :: t) = statusFetches c jobID t := by
  simp [statusFetches, isStatusFetch]

@[simp] theorem statusFetches_sleep (c : Client σ) (jobID : String) (d : Int) (t : List Action) :
    statusFetches c jobID (Action.sleep d :: t) = statusFetches c jobID t := by
  simp [statusFetches, isStatusFetch]

@[simp] theorem statusFetches_fetch (c : Client σ) (jobID : String) (res : Response)
    (t : List Action) :
    statusFetches c jobID (Action.http (getJobRequest c jobID) res :: t) =
      statusFetches c jobID t + 1 := by
  simp [statusFetches, isStatusFetch]

theorem nthFetch_shift (env : Env) (c : Client σ) (jobID : String) (w v : World σ) (d i : Nat)
    (h : v.roundTrips = w.roundTrips + d) :
    nthFetch env c jobID v i = nthFetch env c jobID w (d + i) := by
  unfold nthFetch
  apply GetJob_result_congr
  simp [h]; omega

/-- After `m` fetches that all succeed with a non-terminal status, the loop is
back at its head with the counter advanced by `m`. -/
theorem pollLoop_run (env : Env) (c : Client σ) (jobID : String) :
    ∀ (m fuel : Nat) (attempt : Int) (w : World σ),
      m < fuel → attempt + m ≤ c.maxAttempts + 1 →
      (∀ i, i < m → ∃ j, nthFetch env c jobID w i = .ok j ∧
        j.Status ≠ "completed" ∧ j.Status ≠ "failed") →
      ∃ v : World σ, v.roundTrips = w.roundTrips + m ∧ v.files = w.files ∧
        statusFetches c jobID v.trace = statusFetches c jobID w.trace + m ∧
        pollLoop env c jobID fuel attempt w =
          pollLoop env c jobID (fuel - m) (attempt + m) v := by
  intro m
  induction m with
  | zero => intro fuel attempt w _ _ _; exact ⟨w, by simp, rfl, by simp, by simp⟩
  | succ m ih =>
    intro fuel attempt w hf hle hpre
    obtain ⟨f, rfl⟩ : ∃ f, fuel = f + 1 := ⟨fuel - 1, by omega⟩
    obtain ⟨j, hj, hnc, hnf⟩ := hpre 0 (by omega)
    rw [pollLoop_step env c jobID f attempt w j (by omega) hj]
    simp only [if_neg hnc, if_neg hnf]
    obtain ⟨v, hv1, hv2, hv3, hv4⟩ := ih f (attempt + 1)
      (sleep c.pollInterval (afterRoundTrip env (getJobRequest c jobID)
        (c.emit "status" (statusData c attempt) w)))
      (by omega) (by push_cast at hle; omega)
      (fun i hi => by
        rw [nthFetch_shift env c jobID w _ 1 i (by simp)]
        exact hpre (1 + i) (by omega))
    refine ⟨v, ?_, ?_, ?_, ?_⟩
    · rw [hv1]; simp; omega
    · rw [hv2]; simp
    · rw [hv3]; simp [statusFetches_append]; omega
    · rw [hv4]
      have e1 : f + 1 - (m + 1) = f - m := by omega
      have e2 : attempt + 1 + (m : Int) = attempt + ((m + 1 : Nat) : Int) := by push_cast; omega
      rw [e1, e2]

/-- Shape of every run of the loop, whatever the network answers. -/
theorem pollLoop_shape (env : Env) (c : Client σ) (jobID : String) :
    ∀ (fuel : Nat) (attempt : Int) (w : World σ),
      ∃ added : List Action,
        (pollLoop env c jobID fuel attempt w).1.trace = w.trace ++ added ∧
        (pollLoop env c jobID fuel attempt w).1.files = w.files ∧
        (∀ a ∈ added, isPollAction c jobID a = true) ∧
        statusFetches c jobID added ≤ (c.maxAttempts + 1 - attempt).toNat ∧
        (∀ job, (pollLoop env c jobID fuel attempt w).2 = .ok job →
          job.Status = "completed" ∧
          ∃ front body,
            added = front ++ [Action.http (getJobRequest c jobID) (.reply 200 body)] ∧
            env.decodeJob body = .ok job) := by
  intro fuel
  induction fuel with
  | zero =>
    intro attempt w
    exact ⟨[], by simp [pollLoop], by simp [pollLoop], by simp, by simp,
      by simp [pollLoop]⟩
  | succ fuel ih =>
    intro attempt w
    rw [pollLoop_succ]
    by_cases hle : attempt ≤ c.maxAttempts
    · rw [if_pos hle]
      generalize hw1 : c.emit "status" (statusData c attempt) w = w1
      have ht1 : w1.trace = w.trace ++ [Action.event "status" (statusData c attempt)] := by
        rw [← hw1]; simp
      have hf1 : w1.files = w.files := by rw [← hw1]; simp
      cases hres : (GetJob env c jobID w1).2 with
      | error err =>
        have hpair : GetJob env c jobID w1 = ((GetJob env c jobID w1).1, .error err) :=
          Prod.ext rfl hres
        rw [hpair]
        rcases GetJob_world env c jobID w1 with h | h
        · refine ⟨[Action.event "status" (statusData c attempt)], ?_, ?_, ?_, ?_, ?_⟩
          · simp [h, ht1]
          · simp [h, hf1]
          · simp [isPollAction]
          · simp
          · simp
        · refine ⟨[Action.event "status" (statusData c attempt),
            Action.http (getJobRequest c jobID) (env.roundTrip w1.roundTrips (getJobRequest c jobID))],
            ?_, ?_, ?_, ?_, ?_⟩
          · simp [h, ht1]
          · simp [h, hf1]
          · simp [isPollAction]
          · simp; omega
          · simp
      | ok job =>
        obtain ⟨hw2, body, hbody, hdec⟩ := GetJob_ok env c jobID w1 job hres
        have hpair : GetJob env c jobID w1 =
            (afterRoundTrip env (getJobRequest c jobID) w1, .ok job) := Prod.ext hw2 hres
        rw [hpair]
        have hcount : statusFetches c jobID [Action.event "status" (statusData c attempt),
            Action.http (getJobRequest c jobID) (.reply 200 body)] = 1 := by simp
        dsimp only
        by_cases hc : job.Status = "completed"
        · rw [if_pos hc]
          refine ⟨[Action.event "status" (statusData c attempt),
            Action.http (getJobRequest c jobID) (.reply 200 body)], ?_, ?_, ?_, ?_, ?_⟩
          · simp [ht1, hbody]
          · simp [hf1]
          · simp [isPollAction]
          · rw [hcount]; omega
          · intro job2 h2
            simp only [Except.ok.injEq] at h2
            subst h2
            exact ⟨hc, [Action.event "status" (statusData c attempt)], body, by simp, hdec⟩
        · rw [if_neg hc]
          by_cases hfl : job.Status = "failed"
          · rw [if_pos hfl]
            refine ⟨[Action.event "status" (statusData c attempt),
              Action.http (getJobRequest c jobID) (.reply 200 body)], ?_, ?_, ?_, ?_, ?_⟩
            · simp [ht1, hbody]
            · simp [hf1]
            · simp [isPollAction]
            · rw [hcount]; omega
            · simp
          · rw [if_neg hfl]
            obtain ⟨added, h1, h2, h3, h4, h5⟩ := ih (attempt + 1)
              (sleep c.pollInterval (afterRoundTrip env (getJobRequest c jobID) w1))
            refine ⟨[Action.event "status" (statusData c attempt),
              Action.http (getJobRequest c jobID) (.reply 200 body),
              Action.sleep c.pollInterval] ++ added, ?_, ?_, ?_, ?_, ?_⟩
            · rw [h1]; simp [ht1, hbody]
            · rw [h2]; simp [hf1]
            · intro a ha
              simp only [List.mem_append, List.mem_cons, List.mem_singleton, List.not_mem_nil,
                or_false] at ha
              rcases ha with (rfl | rfl | rfl) | ha
              · simp [isPollAction]
              · simp [isPollAction]
              · simp [isPollAction]
              · exact h3 a ha
            · rw [statusFetches_append]
              have : statusFetches c jobID [Action.event "status" (statusData c attempt),
                  Action.http (getJobRequest c jobID) (.reply 200 body),
                  Action.sleep c.pollInterval] = 1 := by simp
              rw [this]; omega
            · intro job2 hj2
              obtain ⟨hs, front, body2, hadd, hdec2⟩ := h5 job2 hj2
              refine ⟨hs, [Action.event "status" (statusData c attempt),
                Action.http (getJobRequest c jobID) (.reply 200 body),
                Action.sleep c.pollInterval] ++ front, body2, ?_, hdec2⟩
              rw [hadd]; simp
    · rw [if_neg hle]
      exact ⟨[], by simp, by simp, by simp, by simp, by simp⟩

end polling


theorem timeoutError_ne_failedError (n : Int) (e : String) : timeoutError n ≠ failedError e := by
  intro h
  have h1 := congrArg String.data h
  simp [timeoutError, failedError, String.data_append] at h1


/-! ## The four single-call steps -/

section steps
variable {σ : Type}

theorem QuietStep.refl (w : World σ) : QuietStep w w :=
  ⟨[], by simp, rfl, by simp [httpCalls]⟩

theorem QuietStep.roundTrip (env : Env) (req : Request) (w : World σ) :
    QuietStep w (afterRoundTrip env req w) :=
  ⟨[Action.http req (env.roundTrip w.roundTrips req)], rfl, rfl, by simp [httpCalls, Action.exchange]⟩

theorem requestUploadURL_cases (env : Env) (c : Client σ) (fileName targetFormat : String)
    (metadata : Option Metadata) (w : World σ) :
    (∃ w1 e, requestUploadURL env c fileName targetFormat metadata w = (w1, .error e) ∧
      QuietStep w w1 ∧ w1.files = w.files ∧ w1.roundTrips ≤ w.roundTrips + 1) ∨
    (∃ body respBody up,
      env.marshal (uploadURLBody fileName targetFormat metadata) = .ok body ∧
      env.roundTrip w.roundTrips (uploadURLRequest c body) = .reply 200 respBody ∧
      env.decodeUploadURL respBody = .ok up ∧
      requestUploadURL env c fileName targetFormat metadata w =
        (afterRoundTrip env (uploadURLRequest c body) w, .ok up)) := by
  unfold requestUploadURL
  cases hm : env.marshal (uploadURLBody fileName targetFormat metadata) with
  | error err => exact Or.inl ⟨w, _, rfl, QuietStep.refl w, rfl, by omega⟩
  | ok body =>
    cases env.newRequest "POST" (c.baseURL ++ "/api/upload/request-url") with
    | some err => exact Or.inl ⟨w, _, rfl, QuietStep.refl w, rfl, by omega⟩
    | none =>
      simp only [doRequest_eq]
      cases hr : env.roundTrip w.roundTrips (uploadURLRequest c body) with
      | failure err =>
        exact Or.inl ⟨_, _, rfl, QuietStep.roundTrip env _ w, rfl, by simp⟩
      | reply status respBody =>
        by_cases hst : status = 200
        · subst hst
          cases hd : env.decodeUploadURL respBody with
          | error err =>
            refine Or.inl ⟨afterRoundTrip env (uploadURLRequest c body) w,
              "failed to decode response: " ++ err, ?_,
              QuietStep.roundTrip env _ w, rfl, by simp⟩
            simp [hd]
          | ok up =>
            refine Or.inr ⟨body, respBody, up, rfl, hr, hd, ?_⟩
            simp [hd]
        · refine Or.inl ⟨afterRoundTrip env (uploadURLRequest c body) w,
            apiError status respBody, ?_, QuietStep.roundTrip env _ w, rfl, by simp⟩
          simp [hst]

theorem uploadToS3_cases (env : Env) (uploadURL filePath : String) (w : World σ) :
    (∃ w1 e, uploadToS3 env uploadURL filePath w = (w1, some e) ∧
      QuietStep w w1 ∧ w1.files = w.files ∧ w1.roundTrips ≤ w.roundTrips + 1) ∨
    (∃ content status respBody,
      w.files filePath = some content ∧
      env.roundTrip w.roundTrips (uploadRequest uploadURL content) = .reply status respBody ∧
      (status = 200 ∨ status = 204) ∧
      uploadToS3 env uploadURL filePath w =
        (afterRoundTrip env (uploadRequest uploadURL content) w, none)) := by
  unfold uploadToS3
  cases hf : w.files filePath with
  | none => exact Or.inl ⟨w, _, rfl, QuietStep.refl w, rfl, by omega⟩
  | some content =>
    cases env.openErr filePath with
    | some err => exact Or.inl ⟨w, _, rfl, QuietStep.refl w, rfl, by omega⟩
    | none =>
      dsimp only
      cases env.fstatErr filePath with
      | some err => exact Or.inl ⟨w, _, rfl, QuietStep.refl w, rfl, by omega⟩
      | none =>
        cases env.newRequest "PUT" uploadURL with
        | some err => exact Or.inl ⟨w, _, rfl, QuietStep.refl w, rfl, by omega⟩
        | none =>
          simp only [doRequest_eq]
          cases hr : env.roundTrip w.roundTrips (uploadRequest uploadURL content) with
          | failure err =>
            exact Or.inl ⟨_, _, rfl, QuietStep.roundTrip env _ w, rfl, by simp⟩
          | reply status respBody =>
            by_cases hst : status ≠ 200 ∧ status ≠ 204
            · refine Or.inl ⟨afterRoundTrip env (uploadRequest uploadURL content) w,
                "upload failed (status " ++ toString status ++ "): " ++ respBody, ?_,
                QuietStep.roundTrip env _ w, rfl, by simp⟩
              simp only [if_pos hst]
            · refine Or.inr ⟨content, status, respBody, rfl, hr, by omega, ?_⟩
              simp only [if_neg hst]

theorem confirmUpload_cases (env : Env) (c : Client σ) (jobID : String) (w : World σ) :
    (∃ w1 e, confirmUpload env c jobID w = (w1, some e) ∧
      QuietStep w w1 ∧ w1.files = w.files ∧ w1.roundTrips ≤ w.roundTrips + 1) ∨
    (∃ body respBody,
      env.marshal [("job_id", Value.str jobID)] = .ok body ∧
      env.roundTrip w.roundTrips (confirmRequest c body) = .reply 200 respBody ∧
      confirmUpload env c jobID w = (afterRoundTrip env (confirmRequest c body) w, none)) := by
  unfold confirmUpload
  dsimp only
  cases hm : env.marshal [("job_id", Value.str jobID)] with
  | error err => exact Or.inl ⟨w, _, rfl, QuietStep.refl w, rfl, by omega⟩
  | ok body =>
    cases env.newRequest "POST" (c.baseURL ++ "/api/upload/confirm") with
    | some err => exact Or.inl ⟨w, _, rfl, QuietStep.refl w, rfl, by omega⟩
    | none =>
      simp only [doRequest_eq]
      cases hr : env.roundTrip w.roundTrips (confirmRequest c body) with
      | failure err =>
        exact Or.inl ⟨_, _, rfl, QuietStep.roundTrip env _ w, rfl, by simp⟩
      | reply status respBody =>
        by_cases hst : status = 200
        · subst hst
          refine Or.inr ⟨body, respBody, rfl, hr, ?_⟩
          simp
        · refine Or.inl ⟨afterRoundTrip env (confirmRequest c body) w,
            apiError status respBody, ?_, QuietStep.roundTrip env _ w, rfl, by simp⟩
          simp [hst]

theorem downloadFile_cases (env : Env) (url destPath : String) (w : World σ) :
    (∃ w1 e, downloadFile env url destPath w = (w1, some e) ∧ QuietStep w w1) ∨
    (∃ content w1,
      env.roundTrip w.roundTrips (downloadRequest url) = .reply 200 content ∧
      downloadFile env url destPath w = (w1, none) ∧
      w1.trace = w.trace ++ [Action.http (downloadRequest url) (.reply 200 content)] ∧
      w1.files destPath = some content ∧
      (∀ p, p ≠ destPath → w1.files p = w.files p)) := by
  unfold downloadFile
  simp only [doRequest_eq]
  cases hr : env.roundTrip w.roundTrips (downloadRequest url) with
  | failure err => exact Or.inl ⟨_, _, rfl, QuietStep.roundTrip env _ w⟩
  | reply status respBody =>
    by_cases hst : status = 200
    · subst hst
      simp only [ne_eq, not_true_eq_false, if_false]
      cases env.mkdirAllErr (filepath.Dir destPath) with
      | some err => exact Or.inl ⟨_, _, rfl, QuietStep.roundTrip env _ w⟩
      | none =>
        cases env.createErr destPath with
        | some err => exact Or.inl ⟨_, _, rfl, QuietStep.roundTrip env _ w⟩
        | none =>
          cases env.copyErr destPath respBody with
          | some err =>
            refine Or.inl ⟨_, _, rfl, ?_⟩
            exact ⟨[Action.http (downloadRequest url) (env.roundTrip w.roundTrips (downloadRequest url))],
              rfl, rfl, by simp [httpCalls, Action.exchange]⟩
          | none =>
            refine Or.inr ⟨respBody, _, rfl, rfl, ?_, ?_, ?_⟩
            · simp [hr]
            · simp
            · intro p hp; simp [hp]
    · refine Or.inl ⟨afterRoundTrip env (downloadRequest url) w,
        "download failed with status: " ++ toString status, ?_, QuietStep.roundTrip env _ w⟩
      simp [hst]

end steps


/-! ## Observations on traces -/

@[simp] theorem events_nil : events [] = [] := rfl

@[simp] theorem events_append (t u : List Action) : events (t ++ u) = events t ++ events u := by
  simp [events]

@[simp] theorem events_cons_event (name : String) (data : Payload) (t : List Action) :
    events (Action.event name data :: t) = (name, data) :: events t := by
  simp [events, Action.emitted]

@[simp] theorem events_cons_http (req : Request) (res : Response) (t : List Action) :
    events (Action.http req res :: t) = events t := by
  simp [events, Action.emitted]

@[simp] theorem events_cons_sleep (d : Int) (t : List Action) :
    events (Action.sleep d :: t) = events t := by
  simp [events, Action.emitted]

@[simp] theorem httpCalls_nil : httpCalls [] = [] := rfl

@[simp] theorem httpCalls_append (t u : List Action) :
    httpCalls (t ++ u) = httpCalls t ++ httpCalls u := by
  simp [httpCalls]

@[simp] theorem httpCalls_cons_event (name : String) (data : Payload) (t : List Action) :
    httpCalls (Action.event name data :: t) = httpCalls t := by
  simp [httpCalls, Action.exchange]

@[simp] theorem httpCalls_cons_http (req : Request) (res : Response) (t : List Action) :
    httpCalls (Action.http req res :: t) = (req, res) :: httpCalls t := by
  simp [httpCalls, Action.exchange]

@[simp] theorem httpCalls_cons_sleep (d : Int) (t : List Action) :
    httpCalls (Action.sleep d :: t) = httpCalls t := by
  simp [httpCalls, Action.exchange]

@[simp] theorem eventNames_nil : eventNames [] = [] := rfl

@[simp] theorem eventNames_append (t u : List Action) :
    eventNames (t ++ u) = eventNames t ++ eventNames u := by
  simp [eventNames]

@[simp] theorem eventNames_cons_event (name : String) (data : Payload) (t : List Action) :
    eventNames (Action.event name data :: t) = name :: eventNames t := by
  simp [eventNames]

@[simp] theorem eventNames_cons_http (req : Request) (res : Response) (t : List Action) :
    eventNames (Action.http req res :: t) = eventNames t := by
  simp [eventNames]

@[simp] theorem eventNames_cons_sleep (d : Int) (t : List Action) :
    eventNames (Action.sleep d :: t) = eventNames t := by
  simp [eventNames]

@[simp] theorem progressSteps_nil : progressSteps [] = [] := rfl

@[simp] theorem progressSteps_append (t u : List Action) :
    progressSteps (t ++ u) = progressSteps t ++ progressSteps u := by
  simp [progressSteps]

@[simp] theorem progressSteps_cons_http (req : Request) (res : Response) (t : List Action) :
    progressSteps (Action.http req res :: t) = progressSteps t := by
  simp [progressSteps]

@[simp] theorem progressSteps_cons_sleep (d : Int) (t : List Action) :
    progressSteps (Action.sleep d :: t) = progressSteps t := by
  simp [progressSteps]

@[simp] theorem progressSteps_cons_progress (step message : String) (t : List Action) :
    progressSteps (Action.event "progress" (progressData step message) :: t) =
      step :: progressSteps t := by
  simp [progressSteps, progressData]

theorem progressSteps_cons_other (name : String) (data : Payload) (t : List Action)
    (h : name ≠ "progress") :
    progressSteps (Action.event name data :: t) = progressSteps t := by
  simp only [progressSteps, events_cons_event, List.filterMap_cons]
  split
  · rfl
  · rename_i step heq
    split at heq
    · simp only [Option.some.injEq] at heq
      rename_i h1
      simp only [Prod.mk.injEq] at h1
      exact absurd h1.1 h
    · simp at heq

/-- A trace without events opens no step. -/
theorem progressSteps_of_events_nil (t : List Action) (h : events t = []) :
    progressSteps t = [] := by
  simp [progressSteps, h]

theorem eventNames_of_events_nil (t : List Action) (h : events t = []) :
    eventNames t = [] := by
  simp [eventNames, h]

section polling
variable {σ : Type}

/-- What the polling loop adds: its events are all named `status`, it opens no
step, and all its HTTP requests are the status fetch. -/
theorem pollActions_observed (c : Client σ) (jobID : String) :
    ∀ t : List Action, (∀ a ∈ t, isPollAction c jobID a = true) →
      (∀ n ∈ eventNames t, n = "status") ∧ progressSteps t = [] ∧
      (∀ x ∈ httpCalls t, x.1 = getJobRequest c jobID) ∧
      statusFetches c jobID t = (httpCalls t).length := by
  intro t
  induction t with
  | nil => intro _; simp
  | cons a t ih =>
    intro h
    have ha := h a (List.mem_cons_self _ _)
    obtain ⟨h1, h2, h3, h4⟩ := ih (fun b hb => h b (List.mem_cons_of_mem _ hb))
    cases a with
    | event name data =>
      have hn : name = "status" := by simpa [isPollAction] using ha
      subst hn
      refine ⟨?_, ?_, ?_, ?_⟩
      · intro n hn
        simp only [eventNames_cons_event, List.mem_cons] at hn
        rcases hn with rfl | hn
        · rfl
        · exact h1 n hn
      · rw [progressSteps_cons_other _ _ _ (by decide)]; exact h2
      · simpa using h3
      · simpa using h4
    | http req res =>
      have hr : req = getJobRequest c jobID := by simpa [isPollAction] using ha
      subst hr
      refine ⟨by simpa using h1, by simpa using h2, ?_, ?_⟩
      · intro x hx
        simp only [httpCalls_cons_http, List.mem_cons] at hx
        rcases hx with rfl | hx
        · rfl
        · exact h3 x hx
      · simp [h4]
    | sleep d =>
      exact ⟨by simpa using h1, by simpa using h2, by simpa using h3, by simpa using h4⟩

end polling


/-! ## The steps of `ConvertFile`, one after the other -/

theorem extScan_length : ∀ (l acc : List Char),
    (filepath.extScan l acc).length ≤ l.length + acc.length := by
  intro l
  induction l with
  | nil => intro acc; simp [filepath.extScan]
  | cons ch rest ih =>
    intro acc
    unfold filepath.extScan
    split
    · simp
    · split
      · simp; omega
      · have := ih (ch :: acc)
        simp only [List.length_cons] at this ⊢
        omega

theorem Ext_length_le (path : String) :
    (filepath.Ext path).data.length ≤ path.data.length := by
  have := extScan_length path.data.reverse []
  simpa [filepath.Ext] using this

/-- The file name without its extension: `fileName[:len(fileName)-len(Ext(fileName))]`. -/
theorem sliceTo_stem (fileName : String) :
    sliceTo fileName
        ((fileName.data.length : Int) - ((filepath.Ext fileName).data.length : Int)) =
      some (String.mk (fileName.data.take
        (fileName.data.length - (filepath.Ext fileName).data.length))) := by
  have h := Ext_length_le fileName
  unfold sliceTo
  rw [if_pos (by constructor <;> omega)]
  congr 3
  omega

/-- Slicing the file name in step 5 never panics: an output path is always computed. -/
theorem computeOutputPath_eq (options : ConvertFileOptions) (fileName : String) :
    computeOutputPath options fileName =
      some (if options.OutputPath = "" then
        filepath.Join [filepath.Dir options.InputPath,
          String.mk (fileName.data.take
            (fileName.data.length - (filepath.Ext fileName).data.length)) ++ "." ++
            options.TargetFormat]
        else options.OutputPath) := by
  unfold computeOutputPath
  by_cases h : options.OutputPath = ""
  · simp only [if_pos h, sliceTo_stem]
  · simp only [if_neg h]

theorem progressEvent_zero : progressEvent 0 =
    Action.event "progress"
      (progressData "requesting-upload-url" "Requesting upload URL from server") := rfl

theorem progressEvent_one : progressEvent 1 =
    Action.event "progress" (progressData "uploading" "Uploading file to cloud storage") := rfl

theorem progressEvent_two : progressEvent 2 =
    Action.event "progress"
      (progressData "confirming" "Confirming upload and starting conversion") := rfl

theorem progressEvent_three : progressEvent 3 =
    Action.event "progress"
      (progressData "converting" "Converting file (this may take a moment)") := rfl

theorem progressEvent_four : progressEvent 4 =
    Action.event "progress" (progressData "downloading" "Downloading converted file") := rfl

/-- A step that fails right after being opened. -/
theorem FailedAt.here (s : Nat) (e : String) (calls : List Action)
    (hev : ∀ n ∈ eventNames calls, n = "status")
    (hcalls : s ≠ 3 → (httpCalls calls).length ≤ 1) :
    FailedAt s s e (progressEvent s :: calls ++ [Action.event "error" (errorData e)]) :=
  ⟨[], calls, by simp, by simp, by simp, hev, hcalls⟩

/-- A step that succeeds, followed by a failure in a later step. -/
theorem FailedAt.later (s i : Nat) (e : String) (stepCalls added : List Action) (hs : s < 4)
    (hev : ∀ n ∈ eventNames stepCalls, n = "status") (hps : progressSteps stepCalls = [])
    (hsi : s + 1 ≤ i) (h : FailedAt (s + 1) i e added) :
    FailedAt s i e (progressEvent s :: stepCalls ++ added) := by
  obtain ⟨front, calls, hadd, hfront, hnames, hcn, hcalls⟩ := h
  refine ⟨progressEvent s :: stepCalls ++ front, calls, by simp [hadd], ?_, ?_, hcn, hcalls⟩
  · obtain ⟨k, rfl⟩ : ∃ k, i = s + 1 + k := ⟨i - (s + 1), by omega⟩
    have e1 : s + 1 + k - (s + 1) = k := by omega
    have e2 : s + 1 + k - s = k + 1 := by omega
    rw [e1] at hfront
    rw [e2]
    have hs' : s = 0 ∨ s = 1 ∨ s = 2 ∨ s = 3 := by omega
    rcases hs' with rfl | rfl | rfl | rfl <;>
      simp [progressEvent, stepTable, hps, hfront]
  · intro n hn
    simp only [progressEvent, List.cons_append, eventNames_cons_event, eventNames_append,
      List.mem_cons, List.mem_append] at hn
    rcases hn with rfl | hn | hn
    · left; rfl
    · right; exact hev n hn
    · exact hnames n hn


section steps
variable {σ : Type}

theorem fromDownload_cases (env : Env) (c : Client σ) (options : ConvertFileOptions)
    (fileName : String) (job : Job) (w : World σ) :
    FailedFrom 4 w (fromDownload env c options fileName job w) ∨
    CompletedFromDownload env options fileName job w
      (fromDownload env c options fileName job w) := by
  unfold fromDownload
  rw [computeOutputPath_eq]
  dsimp only
  generalize hout : (if options.OutputPath = "" then _ else options.OutputPath) = outputPath
  rcases downloadFile_cases env job.DownloadURL outputPath
      (c.emit "progress" (progressData "downloading" "Downloading converted file") w) with
    ⟨w1, e, heq, calls, htr, hev, hlen⟩ | ⟨content, w1, hrt, heq, htr, hfile, _⟩
  · left
    rw [heq]
    refine ⟨e, 4, progressEvent 4 :: calls ++ [Action.event "error" (errorData e)],
      le_refl _, by omega, rfl, ?_, ?_⟩
    · simp [htr, progressEvent_four]
    · exact FailedAt.here 4 e calls (by simp [eventNames_of_events_nil _ hev]) (fun _ => hlen)
  · right
    rw [heq]
    have hsize : statSize env w1 outputPath = sizeReported env outputPath content := by
      simp [statSize, sizeReported, osStat, hfile]
    refine ⟨outputPath, content, ?_, by simpa using hrt, ?_, ?_, ?_⟩
    · rw [computeOutputPath_eq, hout]
    · simp only [hsize]
    · simp [htr, hsize, progressEvent_four]
    · simpa using hfile

theorem fromPoll_cases (env : Env) (c : Client σ) (options : ConvertFileOptions)
    (fileName : String) (uploadData : UploadURLResponse) (w : World σ) :
    FailedFrom 3 w (fromPoll env c options fileName uploadData w) ∨
    CompletedFromPoll env c options fileName uploadData w
      (fromPoll env c options fileName uploadData w) := by
  unfold fromPoll
  dsimp only
  generalize hw0 : c.emit "progress"
    (progressData "converting" "Converting file (this may take a moment)") w = w0
  have ht0 : w0.trace = w.trace ++ [progressEvent 3] := by
    rw [← hw0]; simp [progressEvent_three]
  obtain ⟨added, h1, _, h3, _, h5⟩ :=
    pollLoop_shape env c uploadData.JobID (c.maxAttempts.toNat + 1) 1 w0
  have hobs := pollActions_observed c uploadData.JobID added h3
  cases hp : pollJobStatus env c uploadData.JobID w0 with
  | mk w1 res =>
    have hp1 : w1.trace = w0.trace ++ added := by
      have := h1; unfold pollJobStatus at hp; rw [hp] at this; exact this
    cases res with
    | error e =>
      left
      refine ⟨e, 3, progressEvent 3 :: added ++ [Action.event "error" (errorData e)],
        le_refl _, by omega, rfl, ?_, ?_⟩
      · simp [hp1, ht0]
      · exact FailedAt.here 3 e added hobs.1 (fun h => absurd rfl h)
    | ok job =>
      have hjob := h5 job (by unfold pollJobStatus at hp; rw [hp])
      obtain ⟨hst, front, jobBody, hadd, hdec⟩ := hjob
      dsimp only
      rcases fromDownload_cases env c options fileName job w1 with
        ⟨e, i, rest, hi1, hi2, hres, htr, hfail⟩ | hok
      · left
        refine ⟨e, i, progressEvent 3 :: added ++ rest, by omega, hi2, hres, ?_, ?_⟩
        · rw [htr, hp1, ht0]; simp
        · exact FailedAt.later 3 i e added rest (by omega) hobs.1 hobs.2.1 hi1 hfail
      · right
        refine ⟨front, jobBody, job, w1, ?_, hdec, hst, ?_, hok⟩
        · intro a ha
          exact h3 a (by rw [hadd]; exact List.mem_append_left _ ha)
        · rw [hp1, ht0, hadd]; simp

theorem fromConfirm_cases (env : Env) (c : Client σ) (options : ConvertFileOptions)
    (fileName : String) (uploadData : UploadURLResponse) (w : World σ) :
    FailedFrom 2 w (fromConfirm env c options fileName uploadData w) ∨
    CompletedFromConfirm env c options fileName uploadData w
      (fromConfirm env c options fileName uploadData w) := by
  unfold fromConfirm
  dsimp only
  generalize hw0 : c.emit "progress"
    (progressData "confirming" "Confirming upload and starting conversion") w = w0
  have ht0 : w0.trace = w.trace ++ [progressEvent 2] := by
    rw [← hw0]; simp [progressEvent_two]
  rcases confirmUpload_cases env c uploadData.JobID w0 with
    ⟨w1, e, heq, ⟨calls, htr, hev, hlen⟩, _, _⟩ | ⟨body, respBody, hm, hrt, heq⟩
  · left
    rw [heq]
    refine ⟨e, 2, progressEvent 2 :: calls ++ [Action.event "error" (errorData e)],
      le_refl _, by omega, rfl, ?_, ?_⟩
    · simp [htr, ht0]
    · exact FailedAt.here 2 e calls (by simp [eventNames_of_events_nil _ hev]) (fun _ => hlen)
  · rw [heq]
    dsimp only
    have ht1 : (afterRoundTrip env (confirmRequest c body) w0).trace =
        w.trace ++ [progressEvent 2, Action.http (confirmRequest c body) (.reply 200 respBody)] := by
      simp [ht0, hrt]
    rcases fromPoll_cases env c options fileName uploadData
        (afterRoundTrip env (confirmRequest c body) w0) with
      ⟨e, i, rest, hi1, hi2, hres, htr, hfail⟩ | hok
    · left
      refine ⟨e, i,
        progressEvent 2 :: [Action.http (confirmRequest c body) (.reply 200 respBody)] ++ rest,
        by omega, hi2, hres, ?_, ?_⟩
      · rw [htr, ht1]; simp
      · exact FailedAt.later 2 i e _ rest (by omega) (by simp) (by simp) hi1 hfail
    · right
      exact ⟨body, respBody, _, hm, ht1, hok⟩

theorem fromUpload_cases (env : Env) (c : Client σ) (options : ConvertFileOptions)
    (fileName : String) (uploadData : UploadURLResponse) (w : World σ) :
    FailedFrom 1 w (fromUpload env c options fileName uploadData w) ∨
    CompletedFromUpload env c options fileName uploadData w
      (fromUpload env c options fileName uploadData w) := by
  unfold fromUpload
  dsimp only
  generalize hw0 : c.emit "progress"
    (progressData "uploading" "Uploading file to cloud storage") w = w0
  have ht0 : w0.trace = w.trace ++ [progressEvent 1] := by
    rw [← hw0]; simp [progressEvent_one]
  have hf0 : w0.files = w.files := by rw [← hw0]; simp
  rcases uploadToS3_cases env uploadData.UploadURL options.InputPath w0 with
    ⟨w1, e, heq, ⟨calls, htr, hev, hlen⟩, _, _⟩ | ⟨content, status, respBody, hfile, hrt, hst, heq⟩
  · left
    rw [heq]
    refine ⟨e, 1, progressEvent 1 :: calls ++ [Action.event "error" (errorData e)],
      le_refl _, by omega, rfl, ?_, ?_⟩
    · simp [htr, ht0]
    · exact FailedAt.here 1 e calls (by simp [eventNames_of_events_nil _ hev]) (fun _ => hlen)
  · rw [heq]
    dsimp only
    have ht1 : (afterRoundTrip env (uploadRequest uploadData.UploadURL content) w0).trace =
        w.trace ++ [progressEvent 1,
          Action.http (uploadRequest uploadData.UploadURL content) (.reply status respBody)] := by
      simp [ht0, hrt]
    rcases fromConfirm_cases env c options fileName uploadData
        (afterRoundTrip env (uploadRequest uploadData.UploadURL content) w0) with
      ⟨e, i, rest, hi1, hi2, hres, htr, hfail⟩ | hok
    · left
      refine ⟨e, i,
        progressEvent 1 ::
          [Action.http (uploadRequest uploadData.UploadURL content) (.reply status respBody)] ++
          rest,
        by omega, hi2, hres, ?_, ?_⟩
      · rw [htr, ht1]; simp
      · exact FailedAt.later 1 i e _ rest (by omega) (by simp) (by simp) hi1 hfail
    · right
      exact ⟨content, status, respBody, _, by rw [← hf0]; exact hfile, hst, ht1, hok⟩

theorem fromRequest_cases (env : Env) (c : Client σ) (options : ConvertFileOptions)
    (fileName : String) (w : World σ) :
    FailedFrom 0 w (fromRequest env c options fileName w) ∨
    CompletedFromRequest env c options fileName w (fromRequest env c options fileName w) := by
  unfold fromRequest
  dsimp only
  generalize hw0 : c.emit "progress"
    (progressData "requesting-upload-url" "Requesting upload URL from server") w = w0
  have ht0 : w0.trace = w.trace ++ [progressEvent 0] := by
    rw [← hw0]; simp [progressEvent_zero]
  have hf0 : w0.files = w.files := by rw [← hw0]; simp
  rcases requestUploadURL_cases env c fileName options.TargetFormat options.ConversionMetadata
      w0 with
    ⟨w1, e, heq, ⟨calls, htr, hev, hlen⟩, _, _⟩ | ⟨body, respBody, up, hm, hrt, hdec, heq⟩
  · left
    rw [heq]
    refine ⟨e, 0, progressEvent 0 :: calls ++ [Action.event "error" (errorData e)],
      le_refl _, by omega, rfl, ?_, ?_⟩
    · simp [htr, ht0]
    · exact FailedAt.here 0 e calls (by simp [eventNames_of_events_nil _ hev]) (fun _ => hlen)
  · rw [heq]
    dsimp only
    have ht1 : (afterRoundTrip env (uploadURLRequest c body) w0).trace =
        w.trace ++ [progressEvent 0,
          Action.http (uploadURLRequest c body) (.reply 200 respBody)] := by
      simp [ht0, hrt]
    rcases fromUpload_cases env c options fileName up
        (afterRoundTrip env (uploadURLRequest c body) w0) with
      ⟨e, i, rest, hi1, hi2, hres, htr, hfail⟩ | hok
    · left
      refine ⟨e, i,
        progressEvent 0 :: [Action.http (uploadURLRequest c body) (.reply 200 respBody)] ++ rest,
        by omega, hi2, hres, ?_, ?_⟩
      · rw [htr, ht1]; simp
      · exact FailedAt.later 0 i e _ rest (by omega) (by simp) (by simp) hi1 hfail
    · right
      exact ⟨body, respBody, up, _, hm, hdec, ht1, by simp [hf0], hok⟩

end steps


section toplevel
variable {σ : Type}

/-- Once the checks have passed and the `start` payload is built, the run is
the five steps started from the world after the `start` event. -/
theorem ConvertFile_started (env : Env) (c : Client σ) (options : ConvertFileOptions)
    (w : World σ) (fileSize : Int) (sourceFormat : String)
    (hkey : c.apiKey ≠ "") (hin : options.InputPath ≠ "") (hfmt : options.TargetFormat ≠ "")
    (hstat : osStat env w options.InputPath = .ok fileSize)
    (hext : sliceFrom (filepath.Ext (filepath.Base options.InputPath)) 1 = some sourceFormat) :
    ConvertFile env c options w =
      fromRequest env c options (filepath.Base options.InputPath)
        (c.emit "start"
          (startData options (filepath.Base options.InputPath) sourceFormat fileSize) w) := by
  rw [ConvertFile_eq, if_neg hkey, if_neg hin, if_neg hfmt, hstat]
  dsimp only
  rw [hext]

/-- Every run either stops before the `start` event, leaving the world
untouched, or passes the checks and continues with the five steps. -/
theorem ConvertFile_cases (env : Env) (c : Client σ) (options : ConvertFileOptions)
    (w : World σ) :
    ((ConvertFile env c options w).1 = w ∧
      ((∃ e, (ConvertFile env c options w).2 = .returned (.error e)) ∨
        (∃ msg, (ConvertFile env c options w).2 = .panicked msg))) ∨
    (∃ fileSize sourceFormat,
      c.apiKey ≠ "" ∧ options.InputPath ≠ "" ∧ options.TargetFormat ≠ "" ∧
      osStat env w options.InputPath = .ok fileSize ∧
      sliceFrom (filepath.Ext (filepath.Base options.InputPath)) 1 = some sourceFormat ∧
      ConvertFile env c options w =
        fromRequest env c options (filepath.Base options.InputPath)
          (c.emit "start"
            (startData options (filepath.Base options.InputPath) sourceFormat fileSize) w)) := by
  by_cases hkey : c.apiKey = ""
  · left; rw [ConvertFile_eq, if_pos hkey]; exact ⟨rfl, Or.inl ⟨_, rfl⟩⟩
  by_cases hin : options.InputPath = ""
  · left; rw [ConvertFile_eq, if_neg hkey, if_pos hin]; exact ⟨rfl, Or.inl ⟨_, rfl⟩⟩
  by_cases hfmt : options.TargetFormat = ""
  · left; rw [ConvertFile_eq, if_neg hkey, if_neg hin, if_pos hfmt]
    exact ⟨rfl, Or.inl ⟨_, rfl⟩⟩
  cases hstat : osStat env w options.InputPath with
  | error err =>
    left; rw [ConvertFile_eq, if_neg hkey, if_neg hin, if_neg hfmt, hstat]
    exact ⟨rfl, Or.inl ⟨_, rfl⟩⟩
  | ok fileSize =>
    cases hext : sliceFrom (filepath.Ext (filepath.Base options.InputPath)) 1 with
    | none =>
      left; rw [ConvertFile_eq, if_neg hkey, if_neg hin, if_neg hfmt, hstat]
      dsimp only
      rw [hext]
      exact ⟨rfl, Or.inr ⟨_, rfl⟩⟩
    | some sourceFormat =>
      right
      exact ⟨fileSize, sourceFormat, hkey, hin, hfmt, rfl, rfl,
        ConvertFile_started env c options w fileSize sourceFormat hkey hin hfmt hstat hext⟩

/-- A successful run went through all five steps. -/
theorem ConvertFile_ok (env : Env) (c : Client σ) (options : ConvertFileOptions)
    (w : World σ) (res : ConvertFileResult)
    (hok : (ConvertFile env c options w).2 = .returned (.ok res)) :
    ∃ fileSize sourceFormat,
      osStat env w options.InputPath = .ok fileSize ∧
      sliceFrom (filepath.Ext (filepath.Base options.InputPath)) 1 = some sourceFormat ∧
      CompletedFromRequest env c options (filepath.Base options.InputPath)
        (c.emit "start"
          (startData options (filepath.Base options.InputPath) sourceFormat fileSize) w)
        (ConvertFile env c options w) := by
  rcases ConvertFile_cases env c options w with ⟨_, ⟨e, he⟩ | ⟨msg, hm⟩⟩ | h
  · rw [he] at hok; simp at hok
  · rw [hm] at hok; simp at hok
  · obtain ⟨fileSize, sourceFormat, _, _, _, hstat, hext, heq⟩ := h
    refine ⟨fileSize, sourceFormat, hstat, hext, ?_⟩
    rcases fromRequest_cases env c options (filepath.Base options.InputPath)
        (c.emit "start"
          (startData options (filepath.Base options.InputPath) sourceFormat fileSize) w) with
      ⟨e, i, added, _, _, hres, _, _⟩ | hc
    · rw [heq] at hok; rw [hres] at hok; simp at hok
    · rw [heq]; exact hc

end toplevel


section toplevel
variable {σ : Type}

/-- The complete trace of a successful run. -/
theorem ConvertFile_ok_trace (env : Env) (c : Client σ) (options : ConvertFileOptions)
    (w : World σ) (res : ConvertFileResult)
    (hok : (ConvertFile env c options w).2 = .returned (.ok res)) :
    ∃ (fileSize : Int) (sourceFormat body1 respBody1 : String) (up : UploadURLResponse)
      (content : String) (status2 : Int) (respBody2 body3 respBody3 : String)
      (front : List Action) (jobBody : String) (job : Job) (outputPath downloaded : String),
      osStat env w options.InputPath = .ok fileSize ∧
      sliceFrom (filepath.Ext (filepath.Base options.InputPath)) 1 = some sourceFormat ∧
      env.marshal (uploadURLBody (filepath.Base options.InputPath) options.TargetFormat
        options.ConversionMetadata) = .ok body1 ∧
      env.decodeUploadURL respBody1 = .ok up ∧
      w.files options.InputPath = some content ∧ (status2 = 200 ∨ status2 = 204) ∧
      env.marshal [("job_id", Value.str up.JobID)] = .ok body3 ∧
      (∀ a ∈ front, isPollAction c up.JobID a = true) ∧
      env.decodeJob jobBody = .ok job ∧ job.Status = "completed" ∧
      computeOutputPath options (filepath.Base options.InputPath) = some outputPath ∧
      res = resultOf options job outputPath (sizeReported env outputPath downloaded) ∧
      (ConvertFile env c options w).1.files outputPath = some downloaded ∧
      (ConvertFile env c options w).1.trace = w.trace ++
        ([Action.event "start"
            (startData options (filepath.Base options.InputPath) sourceFormat fileSize),
          progressEvent 0,
          Action.http (uploadURLRequest c body1) (.reply 200 respBody1),
          progressEvent 1,
          Action.http (uploadRequest up.UploadURL content) (.reply status2 respBody2),
          progressEvent 2,
          Action.http (confirmRequest c body3) (.reply 200 respBody3),
          progressEvent 3] ++ front ++
         [Action.http (getJobRequest c up.JobID) (.reply 200 jobBody),
          progressEvent 4,
          Action.http (downloadRequest job.DownloadURL) (.reply 200 downloaded),
          Action.event "complete" (completeData res)]) := by
  obtain ⟨fileSize, sourceFormat, hstat, hext, body1, rb1, up, w1, hm1, hdec1, ht1, hf1,
    content, st2, rb2, w2, hfile, hst2, ht2, body3, rb3, w3, hm3, ht3,
    front, jobBody, job, w4, hpoll, hdecj, hcompleted, ht4,
    outputPath, downloaded, hout, _, hres, htr, hfiles⟩ := ConvertFile_ok env c options w res hok
  have hres' : res = resultOf options job outputPath (sizeReported env outputPath downloaded) := by
    rw [hok] at hres
    simpa using hres
  refine ⟨fileSize, sourceFormat, body1, rb1, up, content, st2, rb2, body3, rb3, front, jobBody,
    job, outputPath, downloaded, hstat, hext, hm1, hdec1, ?_, hst2, hm3, hpoll, hdecj,
    hcompleted, hout, hres', hfiles, ?_⟩
  · rw [← hfile, hf1]; simp
  · rw [htr, ht4, ht3, ht2, ht1, hres']; simp

end toplevel


theorem Clean_ne_empty (path : String) : filepath.Clean path ≠ "" := by
  unfold filepath.Clean
  by_cases hp : path = ""
  · rw [if_pos hp]; decide
  · rw [if_neg hp]
    dsimp only
    generalize (if filepath.startsWithSeparator path.data = true then
      filepath.cleanLoop true false path.data.tail ['/'] 1
      else filepath.cleanLoop false false path.data [] 0) = out
    by_cases ho : out = []
    · rw [if_pos ho]; decide
    · rw [if_neg ho]
      intro h
      exact ho (congrArg String.data h)

theorem Dir_ne_empty (path : String) : filepath.Dir path ≠ "" := Clean_ne_empty _

/-- Joining a directory returned by `Dir` with a name cleans `dir/name`. -/
theorem Join_Dir (path name : String) :
    filepath.Join [filepath.Dir path, name] =
      filepath.Clean (filepath.Dir path ++ "/" ++ name) := by
  simp [filepath.Join, Dir_ne_empty, String.intercalate, String.intercalate.go]


section toplevel
variable {σ : Type}

theorem count_of_forall_ne (l : List String) (x : String) (h : ∀ n ∈ l, n ≠ x) :
    l.count x = 0 := by
  rw [List.count_eq_zero]
  intro hx
  exact h x hx rfl

/-- In a run that fails in some step, from the opening of step `s` on, the
`error` event occurs exactly once and `complete` never. -/
theorem FailedAt.counts (s i : Nat) (e : String) (added : List Action)
    (h : FailedAt s i e added) :
    (eventNames added).count "error" = 1 ∧ (eventNames added).count "complete" = 0 := by
  obtain ⟨front, calls, hadd, _, hfront, hcalls, _⟩ := h
  have f1 : (eventNames front).count "error" = 0 :=
    count_of_forall_ne _ _ (fun n hn => by rcases hfront n hn with rfl | rfl <;> decide)
  have f2 : (eventNames front).count "complete" = 0 :=
    count_of_forall_ne _ _ (fun n hn => by rcases hfront n hn with rfl | rfl <;> decide)
  have c1 : (eventNames calls).count "error" = 0 :=
    count_of_forall_ne _ _ (fun n hn => by rw [hcalls n hn]; decide)
  have c2 : (eventNames calls).count "complete" = 0 :=
    count_of_forall_ne _ _ (fun n hn => by rw [hcalls n hn]; decide)
  subst hadd
  simp [progressEvent, List.count_append, f1, f2, c1, c2, List.count_cons]

/-- A run that passed the checks and returns an error emitted `error` exactly
once and `complete` never. -/
theorem ConvertFile_error_counts (env : Env) (c : Client σ) (options : ConvertFileOptions)
    (w : World σ) (fileSize : Int) (sourceFormat : String) (e : String)
    (hkey : c.apiKey ≠ "") (hin : options.InputPath ≠ "") (hfmt : options.TargetFormat ≠ "")
    (hstat : osStat env w options.InputPath = .ok fileSize)
    (hext : sliceFrom (filepath.Ext (filepath.Base options.InputPath)) 1 = some sourceFormat)
    (herr : (ConvertFile env c options w).2 = .returned (.error e)) :
    (eventNames (ConvertFile env c options w).1.trace).count "error" =
      (eventNames w.trace).count "error" + 1 ∧
    (eventNames (ConvertFile env c options w).1.trace).count "complete" =
      (eventNames w.trace).count "complete" := by
  have heq := ConvertFile_started env c options w fileSize sourceFormat hkey hin hfmt hstat hext
  rcases fromRequest_cases env c options (filepath.Base options.InputPath)
      (c.emit "start"
        (startData options (filepath.Base options.InputPath) sourceFormat fileSize) w) with
    ⟨e2, i, added, _, _, _, htr, hfail⟩ | hc
  · obtain ⟨k1, k2⟩ := FailedAt.counts 0 i e2 added hfail
    rw [heq, htr]
    simp [List.count_append, k1, k2, List.count_cons]
  · obtain ⟨_, _, _, _, _, _, _, _, _, _, _, _, _, _, _, _, _, _, _, _, _, _, _, _, _, _, _, _,
      _, _, _, _, hres, _, _⟩ := hc
    rw [heq] at herr
    rw [herr] at hres
    simp at hres

end toplevel


section toplevel
variable {σ : Type}

/-- Whenever the `start` payload can be built (the base name of the input has
an extension), the events of a run are: `start` first and once, then only
`progress` and `status` events, and last exactly one of `complete` and
`error`. -/
theorem ConvertFile_event_discipline (env : Env) (c : Client σ)
    (options : ConvertFileOptions) (w : World σ) (fileSize : Int) (sourceFormat : String)
    (hkey : c.apiKey ≠ "") (hin : options.InputPath ≠ "") (hfmt : options.TargetFormat ≠ "")
    (hstat : osStat env w options.InputPath = .ok fileSize)
    (hext : sliceFrom (filepath.Ext (filepath.Base options.InputPath)) 1 = some sourceFormat) :
    ∃ (added : List Action) (middle : List String) (last : String),
      (ConvertFile env c options w).1.trace = w.trace ++ added ∧
      eventNames added = "start" :: middle ++ [last] ∧
      (∀ n ∈ middle, n = "progress" ∨ n = "status") ∧
      (last = "complete" ∨ last = "error") := by
  have heq := ConvertFile_started env c options w fileSize sourceFormat hkey hin hfmt hstat hext
  rcases fromRequest_cases env c options (filepath.Base options.InputPath)
      (c.emit "start"
        (startData options (filepath.Base options.InputPath) sourceFormat fileSize) w) with
    ⟨e, i, added, _, _, _, htr, front, calls, hadd, _, hfront, hcalls, _⟩ | hc
  · refine ⟨Action.event "start"
        (startData options (filepath.Base options.InputPath) sourceFormat fileSize) :: added,
      eventNames front ++ "progress" :: eventNames calls, "error", ?_, ?_, ?_, Or.inr rfl⟩
    · rw [heq, htr]; simp
    · rw [hadd]; simp [progressEvent]
    · intro n hn
      simp only [List.mem_append, List.mem_cons] at hn
      rcases hn with hn | rfl | hn
      · exact hfront n hn
      · left; rfl
      · right; exact hcalls n hn
  · have hres : ∃ res, (ConvertFile env c options w).2 = .returned (.ok res) := by
      obtain ⟨_, _, _, _, _, _, _, _, _, _, _, _, _, _, _, _, _, _, _, _, _, _, _, _, _, _, _, _,
        _, _, _, _, hres, _, _⟩ := hc
      rw [heq]; exact ⟨_, hres⟩
    obtain ⟨res, hok⟩ := hres
    obtain ⟨fs, sf, body1, rb1, up, content, st2, rb2, body3, rb3, front, jobBody,
      job, outputPath, downloaded, _, _, _, _, _, _, _, hpoll, _, _, _, _, _, htrace⟩ :=
      ConvertFile_ok_trace env c options w res hok
    have hobs := (pollActions_observed c up.JobID front hpoll).1
    refine ⟨_, ["progress", "progress", "progress", "progress"] ++ eventNames front ++
      ["progress"], "complete", htrace, ?_, ?_, Or.inl rfl⟩
    · simp [progressEvent]
    · intro n hn
      simp only [List.mem_append, List.mem_cons, List.mem_singleton, List.not_mem_nil,
        or_false] at hn
      rcases hn with (hn | hn) | rfl
      · rcases hn with rfl | rfl | rfl | rfl <;> exact Or.inl rfl
      · right; exact hobs n hn
      · left; rfl

end toplevel


section toplevel
variable {σ : Type}

/-- When the base name of the input has no extension, a call that passed the
checks panics while building the `start` payload and leaves the world
untouched: nothing is emitted. -/
theorem ConvertFile_panics_without_extension (env : Env) (c : Client σ)
    (options : ConvertFileOptions) (w : World σ) (fileSize : Int)
    (hkey : c.apiKey ≠ "") (hin : options.InputPath ≠ "") (hfmt : options.TargetFormat ≠ "")
    (hstat : osStat env w options.InputPath = .ok fileSize)
    (hext : filepath.Ext (filepath.Base options.InputPath) = "") :
    ConvertFile env c options w =
      (w, .panicked "runtime error: slice bounds out of range [1:0]") := by
  rw [ConvertFile_eq, if_neg hkey, if_neg hin, if_neg hfmt, hstat]
  dsimp only
  rw [hext]
  rfl

/-- When the base name of the input has an extension, the first action of a
call that passed the checks is the `start` event, with the base name, the
extension without its dot, the requested format and the size of the input. -/
theorem ConvertFile_start_event (env : Env) (c : Client σ)
    (options : ConvertFileOptions) (w : World σ) (fileSize : Int)
    (hkey : c.apiKey ≠ "") (hin : options.InputPath ≠ "") (hfmt : options.TargetFormat ≠ "")
    (hstat : osStat env w options.InputPath = .ok fileSize)
    (hext : filepath.Ext (filepath.Base options.InputPath) ≠ "") :
    ∃ rest : List Action,
      (ConvertFile env c options w).1.trace = w.trace ++
        Action.event "start"
          [("file_name", Value.str (filepath.Base options.InputPath)),
           ("source_format",
             Value.str (String.mk ((filepath.Ext (filepath.Base options.InputPath)).data.drop 1))),
           ("target_format", Value.str options.TargetFormat),
           ("file_size", Value.int fileSize)] :: rest := by
  have hlen : 1 ≤ (filepath.Ext (filepath.Base options.InputPath)).data.length := by
    cases hd : (filepath.Ext (filepath.Base options.InputPath)).data with
    | nil => exact absurd (String.ext hd) hext
    | cons a l => simp
  have hslice : sliceFrom (filepath.Ext (filepath.Base options.InputPath)) 1 =
      some (String.mk ((filepath.Ext (filepath.Base options.InputPath)).data.drop 1)) := by
    unfold sliceFrom; rw [if_pos hlen]
  have heq := ConvertFile_started env c options w fileSize _ hkey hin hfmt hstat hslice
  rcases fromRequest_cases env c options (filepath.Base options.InputPath)
      (c.emit "start"
        (startData options (filepath.Base options.InputPath)
          (String.mk ((filepath.Ext (filepath.Base options.InputPath)).data.drop 1))
          fileSize) w) with
    ⟨e, i, added, _, _, _, htr, _⟩ | hc
  · refine ⟨added, ?_⟩
    rw [heq, htr]; simp [startData]
  · have hres : ∃ res, (ConvertFile env c options w).2 = .returned (.ok res) := by
      obtain ⟨_, _, _, _, _, _, _, _, _, _, _, _, _, _, _, _, _, _, _, _, _, _, _, _, _, _, _, _,
        _, _, _, _, hres, _, _⟩ := hc
      rw [heq]; exact ⟨_, hres⟩
    obtain ⟨res, hok⟩ := hres
    obtain ⟨fs, sf, body1, rb1, up, content, st2, rb2, body3, rb3, front, jobBody,
      job, outputPath, downloaded, hstat2, hslice2, _, _, _, _, _, _, _, _, _, _, _, htrace⟩ :=
      ConvertFile_ok_trace env c options w res hok
    rw [hstat] at hstat2
    rw [hslice] at hslice2
    simp only [Except.ok.injEq] at hstat2
    simp only [Option.some.injEq] at hslice2
    subst hstat2
    subst hslice2
    refine ⟨[progressEvent 0,
        Action.http (uploadURLRequest c body1) (.reply 200 rb1),
        progressEvent 1,
        Action.http (uploadRequest up.UploadURL content) (.reply st2 rb2),
        progressEvent 2,
        Action.http (confirmRequest c body3) (.reply 200 rb3),
        progressEvent 3] ++ front ++
       [Action.http (getJobRequest c up.JobID) (.reply 200 jobBody),
        progressEvent 4,
        Action.http (downloadRequest job.DownloadURL) (.reply 200 downloaded),
        Action.event "complete" (completeData res)], ?_⟩
    rw [htrace]; simp [startData]

end toplevel


/-! ## Non-success answers to the service calls -/

section calls
variable {σ : Type}

end calls


section polling
variable {σ : Type}

/-- With a negative attempt budget the loop guard fails at once: nothing is
emitted, fetched or slept, and the timeout error is returned. -/
theorem pollJobStatus_negative (env : Env) (c : Client σ) (jobID : String) (w : World σ)
    (hneg : c.maxAttempts < 0) :
    pollJobStatus env c jobID w = (w, .error (timeoutError c.maxAttempts)) := by
  unfold pollJobStatus
  rw [pollLoop_succ, if_neg (by omega)]

theorem statusFetches_cons_other (c : Client σ) (jobID : String) (req : Request)
    (res : Response) (t : List Action) (h : req.method ≠ "GET") :
    statusFetches c jobID (Action.http req res :: t) = statusFetches c jobID t := by
  have hne : req ≠ getJobRequest c jobID := by
    intro heq
    apply h
    rw [heq]
    rfl
  simp [statusFetches, isStatusFetch, hne]

end polling


/-- The JSON object `requestUploadURL` marshals, field by field. -/
theorem uploadURLBody_eq (fileName targetFormat : String) (metadata : Option Metadata) :
    uploadURLBody fileName targetFormat metadata =
      [("file_name", Value.str fileName), ("target_format", Value.str targetFormat)] ++
        (match metadata with
         | some m => [("conversion_metadata", Value.metadata m)]
         | none => []) := by
  cases metadata <;> simp [uploadURLBody]


/-! ## Claims on `pollJobStatus` -/

/-- C1 (as stated, refuted): a client whose `maxAttempts` is `-1` performs `0`
status fetches, and `0` is not at most `-1`. -/
theorem pollJobStatus_negative_budget_fetches :
    (demoClient (-1)).maxAttempts = -1 ∧
    statusFetches (demoClient (-1)) "job-1"
      (pollJobStatus (scriptEnv []) (demoClient (-1)) "job-1" (demoWorld "in.png")).1.trace = 0 ∧
    ¬ ((statusFetches (demoClient (-1)) "job-1"
      (pollJobStatus (scriptEnv []) (demoClient (-1)) "job-1" (demoWorld "in.png")).1.trace : Int)
        ≤ (demoClient (-1)).maxAttempts) := by
  decide

/-- C1 (amended): for every client with `maxAttempts = n`, every environment and
every starting world, `pollJobStatus` performs at most `max n 0` status fetches;
and if the first `k-1` fetches succeed with a non-terminal status and fetch `k`
(`1 ≤ k ≤ n`) reports `"completed"`, then exactly `k` fetches occur and the job
returned is the one reported by fetch `k`, with no error. -/
theorem pollJobStatus_budget_and_completion {σ : Type} (env : Env) (c : Client σ)
    (jobID : String) (w : World σ) :
    ((statusFetches c jobID (pollJobStatus env c jobID w).1.trace : Int)
        ≤ statusFetches c jobID w.trace + max c.maxAttempts 0) ∧
    ∀ (k : Nat) (job : Job), 1 ≤ k → (k : Int) ≤ c.maxAttempts →
      (∀ i, i + 1 < k → ∃ j, nthFetch env c jobID w i = .ok j ∧
        j.Status ≠ "completed" ∧ j.Status ≠ "failed") →
      nthFetch env c jobID w (k - 1) = .ok job → job.Status = "completed" →
      (pollJobStatus env c jobID w).2 = .ok job ∧
      statusFetches c jobID (pollJobStatus env c jobID w).1.trace =
        statusFetches c jobID w.trace + k := by
  constructor
  · obtain ⟨added, h1, _, _, h4, _⟩ := pollLoop_shape env c jobID (c.maxAttempts.toNat + 1) 1 w
    unfold pollJobStatus
    rw [h1, statusFetches_append]
    have : (c.maxAttempts + 1 - 1).toNat = c.maxAttempts.toNat := by simp
    rw [this] at h4
    have h5 : ((c.maxAttempts.toNat : Nat) : Int) = max c.maxAttempts 0 := Int.toNat_eq_max _
    push_cast
    omega
  · intro k job hk1 hkn hpre hk hst
    obtain ⟨v, hv1, _, hv3, hv4⟩ := pollLoop_run env c jobID (k - 1) (c.maxAttempts.toNat + 1) 1 w
      (by omega) (by omega) (fun i hi => hpre i (by omega))
    obtain ⟨f, hf⟩ : ∃ f, c.maxAttempts.toNat + 1 - (k - 1) = f + 1 :=
      ⟨c.maxAttempts.toNat + 1 - (k - 1) - 1, by omega⟩
    have hjob : nthFetch env c jobID v 0 = .ok job := by
      rw [nthFetch_shift env c jobID w v (k - 1) 0 hv1]; exact hk
    unfold pollJobStatus
    rw [hv4, hf, pollLoop_step env c jobID f _ v job (by omega) hjob]
    simp only [if_pos hst]
    refine ⟨trivial, ?_⟩
    simp [statusFetches_append, hv3]
    omega

/-- C1 witness: with budget 3 and a service answering `processing`, then
`completed`, the second fetch ends the polling with the completed job. -/
theorem pollJobStatus_budget_and_completion_witness :
    (pollJobStatus (scriptEnv ["processing", "completed"]) (demoClient 3) "job-1"
        (demoWorld "in.png")).2 = .ok (demoJob "completed") ∧
    statusFetches (demoClient 3) "job-1"
      (pollJobStatus (scriptEnv ["processing", "completed"]) (demoClient 3) "job-1"
        (demoWorld "in.png")).1.trace =
      statusFetches (demoClient 3) "job-1" (demoWorld "in.png").trace + 2 :=
  (pollJobStatus_budget_and_completion (scriptEnv ["processing", "completed"]) (demoClient 3)
    "job-1" (demoWorld "in.png")).2 2 (demoJob "completed") (by decide) (by decide)
    (fun i hi => by
      have hi0 : i = 0 := by omega
      subst hi0
      exact ⟨demoJob "processing", rfl, by decide, by decide⟩)
    rfl (by decide)

/-- C2: if the first `k-1` fetches succeed with a non-terminal status and fetch
`k` (`1 ≤ k ≤ maxAttempts`) reports `"failed"` with error text `e`, then
`pollJobStatus` makes exactly `k` fetches, returns no job, and its error is
`"conversion failed: "` followed by `e` (so it ends with `e`). -/
theorem pollJobStatus_failed {σ : Type} (env : Env) (c : Client σ) (jobID : String)
    (w : World σ) (k : Nat) (job : Job) (e : String)
    (hk1 : 1 ≤ k) (hkn : (k : Int) ≤ c.maxAttempts)
    (hpre : ∀ i, i + 1 < k → ∃ j, nthFetch env c jobID w i = .ok j ∧
      j.Status ≠ "completed" ∧ j.Status ≠ "failed")
    (hk : nthFetch env c jobID w (k - 1) = .ok job)
    (hst : job.Status = "failed") (he : job.Error = e) :
    (pollJobStatus env c jobID w).2 = .error ("conversion failed: " ++ e) ∧
    ("conversion failed: " ++ e).data = "conversion failed: ".data ++ e.data ∧
    statusFetches c jobID (pollJobStatus env c jobID w).1.trace =
      statusFetches c jobID w.trace + k := by
  obtain ⟨v, hv1, _, hv3, hv4⟩ := pollLoop_run env c jobID (k - 1) (c.maxAttempts.toNat + 1) 1 w
    (by omega) (by omega) (fun i hi => hpre i (by omega))
  obtain ⟨f, hf⟩ : ∃ f, c.maxAttempts.toNat + 1 - (k - 1) = f + 1 :=
    ⟨c.maxAttempts.toNat + 1 - (k - 1) - 1, by omega⟩
  have hjob : nthFetch env c jobID v 0 = .ok job := by
    rw [nthFetch_shift env c jobID w v (k - 1) 0 hv1]; exact hk
  have hnc : job.Status ≠ "completed" := by rw [hst]; decide
  unfold pollJobStatus
  rw [hv4, hf, pollLoop_step env c jobID f _ v job (by omega) hjob]
  simp only [if_neg hnc, if_pos hst]
  refine ⟨by rw [← he]; rfl, String.data_append _ _, ?_⟩
  simp [statusFetches_append, hv3]
  omega

/-- C2 witness: budget 5, answers `pending`, `processing`, `failed`. -/
theorem pollJobStatus_failed_witness :
    (pollJobStatus (scriptEnv ["pending", "processing", "failed"]) (demoClient 5) "job-1"
        (demoWorld "in.png")).2 = .error ("conversion failed: " ++ "unsupported image") ∧
    ("conversion failed: " ++ "unsupported image").data =
      "conversion failed: ".data ++ "unsupported image".data ∧
    statusFetches (demoClient 5) "job-1"
      (pollJobStatus (scriptEnv ["pending", "processing", "failed"]) (demoClient 5) "job-1"
        (demoWorld "in.png")).1.trace =
      statusFetches (demoClient 5) "job-1" (demoWorld "in.png").trace + 3 :=
  pollJobStatus_failed (scriptEnv ["pending", "processing", "failed"]) (demoClient 5) "job-1"
    (demoWorld "in.png") 3 (demoJob "failed") "unsupported image" (by decide) (by decide)
    (fun i hi => by
      have hi0 : i = 0 ∨ i = 1 := by omega
      rcases hi0 with rfl | rfl
      · exact ⟨demoJob "pending", rfl, by decide, by decide⟩
      · exact ⟨demoJob "processing", rfl, by decide, by decide⟩)
    rfl (by decide) (by decide)

/-- C3: with `maxAttempts = n ≥ 1` and `n` successful responses none of which is
`"completed"` or `"failed"`, `pollJobStatus` makes exactly `n` fetches and
returns the error `"conversion timeout after n attempts"`, which differs from
the error `"conversion failed: ..."` of a failed job whatever the server's
error text. -/
theorem pollJobStatus_timeout {σ : Type} (env : Env) (c : Client σ) (jobID : String)
    (w : World σ) (n : Nat) (hn1 : 1 ≤ n) (hn : c.maxAttempts = n)
    (hall : ∀ i, i < n → ∃ j, nthFetch env c jobID w i = .ok j ∧
      j.Status ≠ "completed" ∧ j.Status ≠ "failed") :
    (pollJobStatus env c jobID w).2 =
      .error ("conversion timeout after " ++ toString (n : Int) ++ " attempts") ∧
    statusFetches c jobID (pollJobStatus env c jobID w).1.trace =
      statusFetches c jobID w.trace + n ∧
    ∀ e : String,
      "conversion timeout after " ++ toString (n : Int) ++ " attempts" ≠
        "conversion failed: " ++ e := by
  obtain ⟨v, _, _, hv3, hv4⟩ := pollLoop_run env c jobID n (c.maxAttempts.toNat + 1) 1 w
    (by omega) (by omega) hall
  have hf : c.maxAttempts.toNat + 1 - n = 0 + 1 := by omega
  unfold pollJobStatus
  rw [hv4, hf, pollLoop_succ, if_neg (show ¬ ((1 : Int) + (n : Nat) ≤ c.maxAttempts) by omega)]
  refine ⟨by rw [hn]; rfl, hv3, fun e => timeoutError_ne_failedError n e⟩

/-- C3 witness: budget 2 and a service that keeps answering `processing`. -/
theorem pollJobStatus_timeout_witness :
    (pollJobStatus (scriptEnv []) (demoClient 2) "job-1" (demoWorld "in.png")).2 =
      .error ("conversion timeout after " ++ toString ((2 : Nat) : Int) ++ " attempts") ∧
    statusFetches (demoClient 2) "job-1"
      (pollJobStatus (scriptEnv []) (demoClient 2) "job-1" (demoWorld "in.png")).1.trace =
      statusFetches (demoClient 2) "job-1" (demoWorld "in.png").trace + 2 ∧
    ∀ e : String,
      "conversion timeout after " ++ toString ((2 : Nat) : Int) ++ " attempts" ≠
        "conversion failed: " ++ e :=
  pollJobStatus_timeout (scriptEnv []) (demoClient 2) "job-1" (demoWorld "in.png") 2
    (by decide) (by decide)
    (fun i hi => by
      have hi0 : i = 0 ∨ i = 1 := by omega
      rcases hi0 with rfl | rfl
      · exact ⟨demoJob "processing", rfl, by decide, by decide⟩
      · exact ⟨demoJob "processing", rfl, by decide, by decide⟩)


/-! ## The event registry -/

section registry
variable {σ : Type}

theorem On_eventCallbacks (c : Client σ) (event : String) (callback : EventCallback σ)
    (e : String) :
    (c.On event callback).eventCallbacks e =
      if e = event then some ((c.eventCallbacks event).getD [] ++ [callback])
      else c.eventCallbacks e := rfl

/-- The slice stored under `e` after a sequence of registrations. -/
theorem registerAll_eventCallbacks (e : String) :
    ∀ (regs : List (String × EventCallback σ)) (c : Client σ),
      (registerAll c regs).eventCallbacks e =
        if (regs.filter (fun r => r.1 = e)).isEmpty then c.eventCallbacks e
        else some ((c.eventCallbacks e).getD [] ++
          (regs.filter (fun r => r.1 = e)).map Prod.snd) := by
  intro regs
  induction regs with
  | nil => intro c; simp [registerAll]
  | cons r rs ih =>
    intro c
    have hstep : registerAll c (r :: rs) = registerAll (c.On r.1 r.2) rs := rfl
    rw [hstep, ih (c.On r.1 r.2), On_eventCallbacks]
    by_cases hr : r.1 = e
    · subst hr
      cases hrs : rs.filter (fun x => x.1 = r.1) with
      | nil => simp [hrs]
      | cons x xs => simp [hrs]
    · have hne : ¬ e = r.1 := fun h => hr h.symm
      have hfil : (r :: rs).filter (fun x => x.1 = e) = rs.filter (fun x => x.1 = e) :=
        List.filter_cons_of_neg (by simpa using hr)
      rw [hfil]
      simp only [if_neg hne]

theorem foldl_logCall (data : Payload) :
    ∀ (l : List (Nat × String)) (log : List (Nat × Payload)),
      (l.map (fun p => logCall p.1)).foldl (fun s callback => callback data s) log =
        log ++ l.map (fun p => (p.1, data)) := by
  intro l
  induction l with
  | nil => intro log; simp
  | cons p ps ih => intro log; simp [ih, logCall]

end registry

/-- C10: after any sequence `regs` of `On` registrations on a new client,
`emit e data` runs exactly the callbacks registered under `e`, once per
registration, in registration order, each on the given payload: the handler
state becomes the left fold of those callbacks; callbacks registered under
other names do not run; with no registration for `e` nothing runs. For handlers
that log their tag (the position of their registration) the log gains exactly
the tags registered under `e`, in order, each with `data`. -/
theorem emit_runs_registered_in_order :
    (∀ (σ : Type) (config : ClientConfig) (regs : List (String × EventCallback σ))
        (e : String) (data : Payload) (w : World σ),
      ((registerAll (NewClient config) regs).emit e data w).handlers =
          ((regs.filter (fun r => r.1 = e)).map Prod.snd).foldl
            (fun s callback => callback data s) w.handlers ∧
      ((∀ r ∈ regs, r.1 ≠ e) →
        ((registerAll (NewClient config) regs).emit e data w).handlers = w.handlers)) ∧
    (∀ (config : ClientConfig) (names : List String) (e : String) (data : Payload)
        (w : World (List (Nat × Payload))),
      ((registerAll (NewClient config) (names.enum.map (fun p => (p.2, logCall p.1)))).emit
          e data w).handlers =
        w.handlers ++ (names.enum.filter (fun p => p.2 = e)).map (fun p => (p.1, data))) := by
  have key : ∀ (σ : Type) (config : ClientConfig) (regs : List (String × EventCallback σ))
      (e : String) (data : Payload) (w : World σ),
      ((registerAll (NewClient config) regs).emit e data w).handlers =
        ((regs.filter (fun r => r.1 = e)).map Prod.snd).foldl
          (fun s callback => callback data s) w.handlers := by
    intro σ config regs e data w
    unfold Client.emit
    rw [registerAll_eventCallbacks]
    cases h : regs.filter (fun r => r.1 = e) with
    | nil => simp [NewClient]
    | cons x xs => simp [NewClient]
  refine ⟨fun σ config regs e data w => ⟨key σ config regs e data w, fun hno => ?_⟩,
    fun config names e data w => ?_⟩
  · rw [key]
    have : regs.filter (fun r => r.1 = e) = [] := by
      rw [List.filter_eq_nil_iff]
      intro r hr
      simpa using hno r hr
    rw [this]; rfl
  · rw [key, List.filter_map]
    have : ((fun r : String × EventCallback (List (Nat × Payload)) => decide (r.1 = e)) ∘
        fun p : Nat × String => (p.2, logCall p.1)) = fun p => decide (p.2 = e) := rfl
    rw [this, List.map_map]
    exact foldl_logCall data _ w.handlers


/-- C10 witness: with handlers 0, 1, 2 registered under `progress`, `start`,
`progress`, emitting `progress` calls handlers 0 and 2 in this order, and
emitting `error`, for which nothing is registered, calls none. -/
theorem emit_runs_registered_in_order_witness :
    ((registerAll (NewClient ⟨"key", "", 0, 0⟩)
        (["progress", "start", "progress"].enum.map (fun p => (p.2, logCall p.1)))).emit
        "progress" (progressData "uploading" "m") logWorld).handlers =
      [(0, progressData "uploading" "m"), (2, progressData "uploading" "m")] ∧
    ((registerAll (NewClient ⟨"key", "", 0, 0⟩)
        [("progress", logCall 0), ("start", logCall 1), ("progress", logCall 2)]).emit
        "error" (errorData "x") logWorld).handlers = logWorld.handlers :=
  ⟨emit_runs_registered_in_order.2 ⟨"key", "", 0, 0⟩ ["progress", "start", "progress"]
      "progress" (progressData "uploading" "m") logWorld,
   (emit_runs_registered_in_order.1 _ ⟨"key", "", 0, 0⟩
      [("progress", logCall 0), ("start", logCall 1), ("progress", logCall 2)]
      "error" (errorData "x") logWorld).2 (by decide)⟩


/-- C11: `NewClient` applies the documented defaults. For every config the
client's base URL is `https://api.convertorio.com` when `config.BaseURL` is
empty and `config.BaseURL` otherwise; its number of poll attempts is 120 when
`config.MaxAttempts` is 0 and `config.MaxAttempts` otherwise; its poll interval
is 2 seconds (in nanoseconds) when `config.PollInterval` is 0 and
`config.PollInterval` otherwise; its API key is `config.APIKey`; no event name
has a handler, so that `emit` runs nothing. With the config of the test
program (key and base URL given) the client polls 120 times every 2 s. -/
theorem NewClient_defaults :
    (∀ (σ : Type) (config : ClientConfig),
      (NewClient config : Client σ).baseURL =
        (if config.BaseURL = "" then "https://api.convertorio.com" else config.BaseURL) ∧
      (NewClient config : Client σ).maxAttempts =
        (if config.MaxAttempts = 0 then 120 else config.MaxAttempts) ∧
      (NewClient config : Client σ).pollInterval =
        (if config.PollInterval = 0 then 2 * 1000000000 else config.PollInterval) ∧
      (NewClient config : Client σ).apiKey = config.APIKey ∧
      (∀ event, (NewClient config : Client σ).eventCallbacks event = none) ∧
      (∀ event data (w : World σ),
        ((NewClient config : Client σ).emit event data w).handlers = w.handlers)) ∧
    (NewClient ⟨"cv_key", "https://api.convertorio.com", 0, 0⟩ : Client Unit).baseURL =
      "https://api.convertorio.com" ∧
    (NewClient ⟨"cv_key", "https://api.convertorio.com", 0, 0⟩ : Client Unit).maxAttempts = 120 ∧
    (NewClient ⟨"cv_key", "https://api.convertorio.com", 0, 0⟩ : Client Unit).pollInterval =
      2000000000 := by
  refine ⟨fun σ config => ⟨rfl, rfl, rfl, rfl, fun _ => rfl, fun event data w => ?_⟩,
    by decide, by decide, by decide⟩
  simp [Client.emit, NewClient]


/-- C13 (as stated, refuted): converting `./photo.png` with the output path
`/dev/null` succeeds; the download step writes the 8 bytes `JPEGDATA` of the
response body to that path, `os.Stat` of the device reports size 0, and the
result's `FileSize` is 0, not 8. -/
theorem ConvertFile_file_size_of_device :
    (ConvertFile (checkingEnv "photo.png") (demoClient 3)
        (demoOptionsTo "./photo.png" "/dev/null") (demoWorld "./photo.png")).2 =
      .returned (.ok (resultOf (demoOptionsTo "./photo.png" "/dev/null")
        (demoJob "completed") "/dev/null" 0)) ∧
    (httpCalls (ConvertFile (checkingEnv "photo.png") (demoClient 3)
        (demoOptionsTo "./photo.png" "/dev/null") (demoWorld "./photo.png")).1.trace).getLast? =
      some (({ method := "GET", url := "https://cdn.example/job-1.jpg", headers := [],
               body := none, contentLength := 0 } : Request),
            Response.reply 200 "JPEGDATA") ∧
    (ConvertFile (checkingEnv "photo.png") (demoClient 3)
        (demoOptionsTo "./photo.png" "/dev/null") (demoWorld "./photo.png")).1.files
        "/dev/null" = some "JPEGDATA" ∧
    byteLen "JPEGDATA" = 8 ∧
    (resultOf (demoOptionsTo "./photo.png" "/dev/null") (demoJob "completed")
        "/dev/null" 0).FileSize = 0 ∧
    (resultOf (demoOptionsTo "./photo.png" "/dev/null") (demoJob "completed")
        "/dev/null" 0).FileSize ≠ byteLen "JPEGDATA" :=
  ⟨rfl, by decide, rfl, by decide, rfl, by decide⟩

/-- C13 (amended): in every successful call of `ConvertFile` the last HTTP
exchange is the `GET` of the result's `DownloadURL`, answered 200 with a body
`downloaded` that the download step writes to the result's `OutputPath`; the
result's `FileSize` is the size that `os.Stat` reports for that path after the
download, and 0 when that `os.Stat` fails; so when `os.Stat` reports the
length of what was written (a regular file), `FileSize` is the number of bytes
of `downloaded`. The last action of the run is the single `complete` event,
carrying the `job_id`, `output_path`, `processing_time` and `file_size` of the
returned result. -/
theorem ConvertFile_file_size_and_complete {σ : Type} (env : Env) (c : Client σ)
    (options : ConvertFileOptions) (w : World σ) (res : ConvertFileResult)
    (added : List Action)
    (hok : (ConvertFile env c options w).2 = .returned (.ok res))
    (htr : (ConvertFile env c options w).1.trace = w.trace ++ added) :
    ∃ (downloaded : String) (front : List Action),
      added = front ++
        [Action.http
           ({ method := "GET", url := res.DownloadURL, headers := [],
              body := none, contentLength := 0 } : Request)
           (.reply 200 downloaded),
         Action.event "complete"
           [("job_id", Value.str res.JobID), ("output_path", Value.str res.OutputPath),
            ("processing_time", Value.int res.ProcessingTime),
            ("file_size", Value.int res.FileSize)]] ∧
      (ConvertFile env c options w).1.files res.OutputPath = some downloaded ∧
      res.FileSize =
        (match osStat env (ConvertFile env c options w).1 res.OutputPath with
         | .ok size => size
         | .error _ => 0) ∧
      (osStat env (ConvertFile env c options w).1 res.OutputPath = .ok (byteLen downloaded) →
        res.FileSize = byteLen downloaded) ∧
      (eventNames added).count "complete" = 1 := by
  obtain ⟨fileSize, sourceFormat, body1, rb1, up, content, st2, rb2, body3, rb3, front, jobBody,
    job, outputPath, downloaded, _, _, _, _, _, _, _, hpoll, _, _, _, hres, hfiles, htrace⟩ :=
    ConvertFile_ok_trace env c options w res hok
  have hadd := List.append_cancel_left (htr.symm.trans htrace)
  have hnames := (pollActions_observed c up.JobID front hpoll).1
  have hcount : (eventNames front).count "complete" = 0 :=
    count_of_forall_ne _ _ (fun n hn => by rw [hnames n hn]; decide)
  subst hres
  have hsize : (resultOf options job outputPath
      (sizeReported env outputPath downloaded)).FileSize =
      (match osStat env (ConvertFile env c options w).1 outputPath with
       | .ok size => size
       | .error _ => 0) := by
    simp only [osStat, hfiles]
    rfl
  refine ⟨downloaded,
    [Action.event "start"
        (startData options (filepath.Base options.InputPath) sourceFormat fileSize),
      progressEvent 0,
      Action.http (uploadURLRequest c body1) (.reply 200 rb1),
      progressEvent 1,
      Action.http (uploadRequest up.UploadURL content) (.reply st2 rb2),
      progressEvent 2,
      Action.http (confirmRequest c body3) (.reply 200 rb3),
      progressEvent 3] ++ front ++
      [Action.http (getJobRequest c up.JobID) (.reply 200 jobBody), progressEvent 4],
    ?_, hfiles, hsize, ?_, ?_⟩
  · rw [hadd]; simp [completeData, resultOf, downloadRequest]
  · intro hreg
    rw [hsize]
    change (match osStat env (ConvertFile env c options w).1 outputPath with
      | .ok size => size
      | .error _ => 0) = byteLen downloaded
    have hreg' : osStat env (ConvertFile env c options w).1 outputPath =
        .ok (byteLen downloaded) := hreg
    rw [hreg']
  · rw [hadd]
    simp [progressEvent, List.count_append, List.count_cons, hcount]

/-- C13 witness: the run of the checking example service on `./photo.png`; the
8 bytes `JPEGDATA` are downloaded to the regular file `photo.jpg`, `os.Stat`
reports their number and `FileSize` is that number; the run ends with the
single `complete` event carrying the fields of the result. -/
theorem ConvertFile_file_size_and_complete_witness :
    (ConvertFile (checkingEnv "photo.png") (demoClient 3) (demoOptions "./photo.png")
        (demoWorld "./photo.png")).2 =
      .returned (.ok (resultOf (demoOptions "./photo.png") (demoJob "completed")
        "photo.jpg" 8)) ∧
    osStat (checkingEnv "photo.png")
        (ConvertFile (checkingEnv "photo.png") (demoClient 3) (demoOptions "./photo.png")
          (demoWorld "./photo.png")).1 "photo.jpg" = .ok (byteLen "JPEGDATA") ∧
    (ConvertFile (checkingEnv "photo.png") (demoClient 3) (demoOptions "./photo.png")
        (demoWorld "./photo.png")).1.files "photo.jpg" = some "JPEGDATA" ∧
    (resultOf (demoOptions "./photo.png") (demoJob "completed") "photo.jpg" 8).FileSize =
      byteLen "JPEGDATA" ∧
    (ConvertFile (checkingEnv "photo.png") (demoClient 3) (demoOptions "./photo.png")
        (demoWorld "./photo.png")).1.trace.getLast? =
      some (Action.event "complete"
        [("job_id", Value.str "job-1"), ("output_path", Value.str "photo.jpg"),
         ("processing_time", Value.int 42), ("file_size", Value.int 8)]) ∧
    (eventNames (ConvertFile (checkingEnv "photo.png") (demoClient 3)
        (demoOptions "./photo.png") (demoWorld "./photo.png")).1.trace).count "complete" = 1 := by
  obtain ⟨downloaded, front, _, hfile, _, hregular, hcount⟩ :=
    ConvertFile_file_size_and_complete (checkingEnv "photo.png") (demoClient 3)
      (demoOptions "./photo.png") (demoWorld "./photo.png")
      (resultOf (demoOptions "./photo.png") (demoJob "completed") "photo.jpg" 8)
      (ConvertFile (checkingEnv "photo.png") (demoClient 3) (demoOptions "./photo.png")
        (demoWorld "./photo.png")).1.trace
      rfl rfl
  have hwritten : (ConvertFile (checkingEnv "photo.png") (demoClient 3)
      (demoOptions "./photo.png") (demoWorld "./photo.png")).1.files "photo.jpg" =
      some "JPEGDATA" := rfl
  have hd : downloaded = "JPEGDATA" := by
    have h := hfile
    change (ConvertFile (checkingEnv "photo.png") (demoClient 3)
      (demoOptions "./photo.png") (demoWorld "./photo.png")).1.files "photo.jpg" =
      some downloaded at h
    rw [hwritten] at h
    exact (Option.some.inj h).symm
  subst hd
  exact ⟨rfl, rfl, hwritten, hregular rfl, by decide, hcount⟩


/-- C14 (the code breaks it): for the existing input `docs/README`, whose base
name `README` has no dot, `filepath.Ext` is empty and the slice `[1:]` taken
of it while the `start` payload is built is out of range: `ConvertFile`
panics, and no `start` event (nor any other action) is recorded, although API
key, input path and target format are present and the file exists. -/
theorem ConvertFile_start_payload_out_of_range :
    (demoClient 3).apiKey ≠ "" ∧ (demoOptions "docs/README").InputPath ≠ "" ∧
    (demoOptions "docs/README").TargetFormat ≠ "" ∧
    (demoWorld "docs/README").files "docs/README" = some "PNGDATA" ∧
    filepath.Base "docs/README" = "README" ∧ filepath.Ext "README" = "" ∧
    sliceFrom (filepath.Ext (filepath.Base "docs/README")) 1 = none ∧
    (ConvertFile (scriptEnv happyScript) (demoClient 3) (demoOptions "docs/README")
        (demoWorld "docs/README")).2 =
      .panicked "runtime error: slice bounds out of range [1:0]" ∧
    (ConvertFile (scriptEnv happyScript) (demoClient 3) (demoOptions "docs/README")
        (demoWorld "docs/README")).1.trace = [] :=
  ⟨by decide, by decide, by decide, rfl, by decide, by decide, by decide, rfl, by decide⟩


/-- C15: a client built by `NewClient` from a config with a negative
`MaxAttempts` keeps that value, and its `pollJobStatus` returns the timeout
error at once, leaving the world as it is: no `status` event, no status fetch,
no sleep. Hence a `ConvertFile` call on such a client whose request, upload and
confirmation succeed ends, right after the `progress` event of the polling
step, with the `error` event and the timeout error; over the whole run no
status fetch is made for any job and no `status` event is emitted. -/
theorem negative_budget_never_polls {σ : Type} (config : ClientConfig) (c : Client σ)
    (hc : c = NewClient config) (hneg : config.MaxAttempts < 0) :
    c.maxAttempts = config.MaxAttempts ∧
    (∀ (env : Env) (jobID : String) (w : World σ),
      pollJobStatus env c jobID w =
        (w, .error ("conversion timeout after " ++ toString config.MaxAttempts ++
          " attempts"))) ∧
    (∀ (env : Env) (options : ConvertFileOptions) (w : World σ) (fileSize : Int)
        (sourceFormat : String) (w1 : World σ) (up : UploadURLResponse) (w2 w3 : World σ),
      c.apiKey ≠ "" → options.InputPath ≠ "" → options.TargetFormat ≠ "" →
      osStat env w options.InputPath = .ok fileSize →
      sliceFrom (filepath.Ext (filepath.Base options.InputPath)) 1 = some sourceFormat →
      requestUploadURL env c (filepath.Base options.InputPath) options.TargetFormat
          options.ConversionMetadata (atRequest c options sourceFormat fileSize w) =
        (w1, .ok up) →
      uploadToS3 env up.UploadURL options.InputPath (atUpload c w1) = (w2, none) →
      confirmUpload env c up.JobID (atConfirm c w2) = (w3, none) →
      (ConvertFile env c options w).2 =
        .returned (.error ("conversion timeout after " ++ toString config.MaxAttempts ++
          " attempts")) ∧
      (ConvertFile env c options w).1.trace = w3.trace ++
        [Action.event "progress"
           (progressData "converting" "Converting file (this may take a moment)"),
         Action.event "error"
           [("error", Value.str ("conversion timeout after " ++
              toString config.MaxAttempts ++ " attempts"))]] ∧
      (∀ jobID, statusFetches c jobID (ConvertFile env c options w).1.trace =
        statusFetches c jobID w.trace) ∧
      (eventNames (ConvertFile env c options w).1.trace).count "status" =
        (eventNames w.trace).count "status") := by
  have hmax : c.maxAttempts = config.MaxAttempts := by
    rw [hc]
    simp only [NewClient]
    rw [if_neg (by omega)]
  have hpoll : ∀ (env : Env) (jobID : String) (w : World σ),
      pollJobStatus env c jobID w =
        (w, .error ("conversion timeout after " ++ toString config.MaxAttempts ++
          " attempts")) := by
    intro env jobID w
    rw [pollJobStatus_negative env c jobID w (by omega), hmax]
    rfl
  refine ⟨hmax, hpoll, ?_⟩
  intro env options w fileSize sourceFormat w1 up w2 w3 hkey hin hfmt hstat hext h1 h2 h3
  have heq := ConvertFile_started env c options w fileSize sourceFormat hkey hin hfmt hstat hext
  have hrun : ConvertFile env c options w =
      (c.emit "error"
          (errorData ("conversion timeout after " ++ toString config.MaxAttempts ++
            " attempts")) (atPoll c w3),
        .returned (.error ("conversion timeout after " ++ toString config.MaxAttempts ++
          " attempts"))) := by
    rw [heq]; unfold fromRequest; unfold atRequest at h1; dsimp only; rw [h1]
    dsimp only; unfold fromUpload; unfold atUpload at h2; dsimp only; rw [h2]
    dsimp only; unfold fromConfirm; unfold atConfirm at h3; dsimp only; rw [h3]
    dsimp only; unfold fromPoll; dsimp only; rw [hpoll]
    rfl
  -- the worlds left by the three successful steps
  have e1 : ∃ body, w1 = afterRoundTrip env (uploadURLRequest c body)
      (atRequest c options sourceFormat fileSize w) := by
    rcases requestUploadURL_cases env c (filepath.Base options.InputPath) options.TargetFormat
        options.ConversionMetadata (atRequest c options sourceFormat fileSize w) with
      ⟨_, _, hv, _⟩ | ⟨body, _, _, _, _, _, hv⟩
    · rw [h1] at hv; simp at hv
    · rw [h1] at hv; simp only [Prod.mk.injEq] at hv; exact ⟨body, hv.1⟩
  have e2 : ∃ content, w2 = afterRoundTrip env (uploadRequest up.UploadURL content)
      (atUpload c w1) := by
    rcases uploadToS3_cases env up.UploadURL options.InputPath (atUpload c w1) with
      ⟨_, _, hv, _⟩ | ⟨content, _, _, _, _, _, hv⟩
    · rw [h2] at hv; simp at hv
    · rw [h2] at hv; simp only [Prod.mk.injEq] at hv; exact ⟨content, hv.1⟩
  have e3 : ∃ body, w3 = afterRoundTrip env (confirmRequest c body) (atConfirm c w2) := by
    rcases confirmUpload_cases env c up.JobID (atConfirm c w2) with
      ⟨_, _, hv, _⟩ | ⟨body, _, _, _, hv⟩
    · rw [h3] at hv; simp at hv
    · rw [h3] at hv; simp only [Prod.mk.injEq] at hv; exact ⟨body, hv.1⟩
  obtain ⟨body1, rfl⟩ := e1
  obtain ⟨content, rfl⟩ := e2
  obtain ⟨body3, rfl⟩ := e3
  refine ⟨by rw [hrun], ?_, ?_, ?_⟩
  · rw [hrun]; simp [atPoll, errorData]
  · intro jobID
    rw [hrun]
    simp only [emit_trace, atPoll, atConfirm, atUpload, atRequest, afterRoundTrip_trace,
      statusFetches_append, statusFetches_event, statusFetches_nil]
    rw [statusFetches_cons_other c jobID (uploadURLRequest c body1) _ _
        (by simp [uploadURLRequest]),
      statusFetches_cons_other c jobID (uploadRequest up.UploadURL content) _ _
        (by simp [uploadRequest]),
      statusFetches_cons_other c jobID (confirmRequest c body3) _ _
        (by simp [confirmRequest])]
    simp
  · rw [hrun]
    simp [atPoll, atConfirm, atUpload, atRequest, List.count_append, List.count_cons]

/-- C15 witness: the client built from `MaxAttempts = -1`. Polling returns
`conversion timeout after -1 attempts` in the unchanged world, and the
conversion of `./photo.png` against the example service, which would report
the job completed at the first fetch, fails with that error without any status
fetch. -/
theorem negative_budget_never_polls_witness :
    pollJobStatus (scriptEnv happyScript) (demoClient (-1)) "job-1" (demoWorld "./photo.png") =
      (demoWorld "./photo.png", .error "conversion timeout after -1 attempts") ∧
    (ConvertFile (scriptEnv happyScript) (demoClient (-1)) (demoOptions "./photo.png")
        (demoWorld "./photo.png")).2 =
      .returned (.error "conversion timeout after -1 attempts") ∧
    statusFetches (demoClient (-1)) "job-1"
      (ConvertFile (scriptEnv happyScript) (demoClient (-1)) (demoOptions "./photo.png")
        (demoWorld "./photo.png")).1.trace = 0 ∧
    (eventNames (ConvertFile (scriptEnv happyScript) (demoClient (-1))
      (demoOptions "./photo.png") (demoWorld "./photo.png")).1.trace).count "status" = 0 := by
  have h := negative_budget_never_polls ⟨"key", "", -1, 0⟩ (demoClient (-1)) rfl (by decide)
  have hrun := h.2.2 (scriptEnv happyScript) (demoOptions "./photo.png")
    (demoWorld "./photo.png") 7 "png" _ ⟨"job-1", "https://s3.example/slot"⟩ _ _
    (by decide) (by decide) (by decide) rfl rfl rfl rfl rfl
  exact ⟨h.2.1 (scriptEnv happyScript) "job-1" (demoWorld "./photo.png"), hrun.1,
    hrun.2.2.1 "job-1", hrun.2.2.2⟩


/-! ## Claims on `ConvertFile` -/

/-- C4 (the code breaks it): `ConvertFile` called on the existing file
`Makefile`, with API key and target format present, panics while building the
`start` payload (`filepath.Ext(fileName)[1:]` on an empty extension): no event
at all is emitted, neither `start` nor `complete` nor `error`, and no request
is sent. -/
theorem ConvertFile_no_extension_panics :
    (demoClient 3).apiKey ≠ "" ∧ (demoOptions "Makefile").InputPath ≠ "" ∧
    (demoOptions "Makefile").TargetFormat ≠ "" ∧
    osStat (scriptEnv happyScript) (demoWorld "Makefile") (demoOptions "Makefile").InputPath = .ok 7 ∧
    (ConvertFile (scriptEnv happyScript) (demoClient 3) (demoOptions "Makefile")
        (demoWorld "Makefile")).2 =
      .panicked "runtime error: slice bounds out of range [1:0]" ∧
    eventNames (ConvertFile (scriptEnv happyScript) (demoClient 3) (demoOptions "Makefile")
        (demoWorld "Makefile")).1.trace = [] ∧
    httpCalls (ConvertFile (scriptEnv happyScript) (demoClient 3) (demoOptions "Makefile")
        (demoWorld "Makefile")).1.trace = [] :=
  ⟨by decide, by decide, by decide, rfl, rfl, by decide, by decide⟩

/-- C5: if the API key is empty, or else the input path is empty, or else the
target format is empty, or else the input file does not exist, `ConvertFile`
returns no result and an error and leaves the world as it found it: nothing is
added to the trace (no event, neither `start` nor `error`; no HTTP exchange,
so no request for an upload URL). The checks are made in this order and the
first failing one decides the message. -/
theorem ConvertFile_validation {σ : Type} (env : Env) (c : Client σ)
    (options : ConvertFileOptions) (w : World σ) :
    (c.apiKey = "" →
      ConvertFile env c options w = (w, .returned (.error "API key is required"))) ∧
    (c.apiKey ≠ "" → options.InputPath = "" →
      ConvertFile env c options w = (w, .returned (.error "input path is required"))) ∧
    (c.apiKey ≠ "" → options.InputPath ≠ "" → options.TargetFormat = "" →
      ConvertFile env c options w = (w, .returned (.error "target format is required"))) ∧
    (c.apiKey ≠ "" → options.InputPath ≠ "" → options.TargetFormat ≠ "" →
      w.files options.InputPath = none →
      ConvertFile env c options w =
        (w, .returned (.error ("input file not found: " ++
          ("stat " ++ options.InputPath ++ ": no such file or directory"))))) ∧
    ((c.apiKey = "" ∨ options.InputPath = "" ∨ options.TargetFormat = "" ∨
        w.files options.InputPath = none) →
      (ConvertFile env c options w).1.trace = w.trace ∧
      (ConvertFile env c options w).1.roundTrips = w.roundTrips ∧
      ∃ e, (ConvertFile env c options w).2 = .returned (.error e)) := by
  have h1 : c.apiKey = "" →
      ConvertFile env c options w = (w, .returned (.error "API key is required")) := by
    intro hkey; rw [ConvertFile_eq, if_pos hkey]
  have h2 : c.apiKey ≠ "" → options.InputPath = "" →
      ConvertFile env c options w = (w, .returned (.error "input path is required")) := by
    intro hkey hin; rw [ConvertFile_eq, if_neg hkey, if_pos hin]
  have h3 : c.apiKey ≠ "" → options.InputPath ≠ "" → options.TargetFormat = "" →
      ConvertFile env c options w = (w, .returned (.error "target format is required")) := by
    intro hkey hin hfmt; rw [ConvertFile_eq, if_neg hkey, if_neg hin, if_pos hfmt]
  have h4 : c.apiKey ≠ "" → options.InputPath ≠ "" → options.TargetFormat ≠ "" →
      w.files options.InputPath = none →
      ConvertFile env c options w =
        (w, .returned (.error ("input file not found: " ++
          ("stat " ++ options.InputPath ++ ": no such file or directory")))) := by
    intro hkey hin hfmt hfile
    rw [ConvertFile_eq, if_neg hkey, if_neg hin, if_neg hfmt]
    simp [osStat, hfile]
  refine ⟨h1, h2, h3, h4, ?_⟩
  intro h
  by_cases hkey : c.apiKey = ""
  · rw [h1 hkey]; exact ⟨rfl, rfl, _, rfl⟩
  by_cases hin : options.InputPath = ""
  · rw [h2 hkey hin]; exact ⟨rfl, rfl, _, rfl⟩
  by_cases hfmt : options.TargetFormat = ""
  · rw [h3 hkey hin hfmt]; exact ⟨rfl, rfl, _, rfl⟩
  have hfile : w.files options.InputPath = none := by
    rcases h with h | h | h | h
    · exact absurd h hkey
    · exact absurd h hin
    · exact absurd h hfmt
    · exact h
  rw [h4 hkey hin hfmt hfile]; exact ⟨rfl, rfl, _, rfl⟩

/-- C5 witness: a client without API key asked to convert nothing to nothing is
told about the API key; with a key, about the input path; with a path, about
the target format; with a format, about the missing file. -/
theorem ConvertFile_validation_witness :
    ConvertFile (scriptEnv []) (NewClient ⟨"", "", 0, 0⟩ : Client Unit) ⟨"", "", "", none⟩
        (demoWorld "in.png") =
      (demoWorld "in.png", .returned (.error "API key is required")) ∧
    ConvertFile (scriptEnv []) (demoClient 3) ⟨"", "", "", none⟩ (demoWorld "in.png") =
      (demoWorld "in.png", .returned (.error "input path is required")) ∧
    ConvertFile (scriptEnv []) (demoClient 3) ⟨"gone.png", "", "", none⟩ (demoWorld "in.png") =
      (demoWorld "in.png", .returned (.error "target format is required")) ∧
    ConvertFile (scriptEnv []) (demoClient 3) ⟨"gone.png", "jpg", "", none⟩
        (demoWorld "in.png") =
      (demoWorld "in.png", .returned (.error ("input file not found: " ++
        ("stat " ++ "gone.png" ++ ": no such file or directory")))) ∧
    ((ConvertFile (scriptEnv []) (demoClient 3) ⟨"gone.png", "jpg", "", none⟩
        (demoWorld "in.png")).1.trace = (demoWorld "in.png").trace ∧
      (ConvertFile (scriptEnv []) (demoClient 3) ⟨"gone.png", "jpg", "", none⟩
        (demoWorld "in.png")).1.roundTrips = (demoWorld "in.png").roundTrips ∧
      ∃ e, (ConvertFile (scriptEnv []) (demoClient 3) ⟨"gone.png", "jpg", "", none⟩
        (demoWorld "in.png")).2 = .returned (.error e)) :=
  ⟨(ConvertFile_validation (scriptEnv []) (NewClient ⟨"", "", 0, 0⟩ : Client Unit)
      ⟨"", "", "", none⟩ (demoWorld "in.png")).1 rfl,
   (ConvertFile_validation (scriptEnv []) (demoClient 3) ⟨"", "", "", none⟩
      (demoWorld "in.png")).2.1 (by decide) rfl,
   (ConvertFile_validation (scriptEnv []) (demoClient 3) ⟨"gone.png", "", "", none⟩
      (demoWorld "in.png")).2.2.1 (by decide) (by decide) rfl,
   (ConvertFile_validation (scriptEnv []) (demoClient 3) ⟨"gone.png", "jpg", "", none⟩
      (demoWorld "in.png")).2.2.2.1 (by decide) (by decide) (by decide) (by decide),
   (ConvertFile_validation (scriptEnv []) (demoClient 3) ⟨"gone.png", "jpg", "", none⟩
      (demoWorld "in.png")).2.2.2.2 (Or.inr (Or.inr (Or.inr (by decide))))⟩


/-- C6: in a call of `ConvertFile` that passed the checks (and so emitted
`start`), whichever step fails with error `e` -- request upload URL, upload,
confirm, poll or download, the earlier steps having succeeded -- the run stops
there: no later step runs, `ConvertFile` returns `e` and no result, and the
`error` event is emitted exactly once, last, with payload field `error` equal
to `e`, `complete` never. A failing request, upload, confirm or download step
added at most one HTTP exchange to the trace: its call is not retried. -/
theorem ConvertFile_step_failure {σ : Type} (env : Env) (c : Client σ)
    (options : ConvertFileOptions) (w : World σ) (fileSize : Int) (sourceFormat : String)
    (hkey : c.apiKey ≠ "") (hin : options.InputPath ≠ "") (hfmt : options.TargetFormat ≠ "")
    (hstat : osStat env w options.InputPath = .ok fileSize)
    (hext : sliceFrom (filepath.Ext (filepath.Base options.InputPath)) 1 = some sourceFormat) :
    (∀ w1 e,
      requestUploadURL env c (filepath.Base options.InputPath) options.TargetFormat
          options.ConversionMetadata (atRequest c options sourceFormat fileSize w) =
        (w1, .error e) →
      StopsAt c w w1 e (ConvertFile env c options w) ∧
      QuietStep (atRequest c options sourceFormat fileSize w) w1) ∧
    (∀ w1 up,
      requestUploadURL env c (filepath.Base options.InputPath) options.TargetFormat
          options.ConversionMetadata (atRequest c options sourceFormat fileSize w) =
        (w1, .ok up) →
      (∀ w2 e,
        uploadToS3 env up.UploadURL options.InputPath (atUpload c w1) = (w2, some e) →
        StopsAt c w w2 e (ConvertFile env c options w) ∧ QuietStep (atUpload c w1) w2) ∧
      (∀ w2,
        uploadToS3 env up.UploadURL options.InputPath (atUpload c w1) = (w2, none) →
        (∀ w3 e,
          confirmUpload env c up.JobID (atConfirm c w2) = (w3, some e) →
          StopsAt c w w3 e (ConvertFile env c options w) ∧ QuietStep (atConfirm c w2) w3) ∧
        (∀ w3,
          confirmUpload env c up.JobID (atConfirm c w2) = (w3, none) →
          (∀ w4 e,
            pollJobStatus env c up.JobID (atPoll c w3) = (w4, .error e) →
            StopsAt c w w4 e (ConvertFile env c options w)) ∧
          (∀ w4 job outputPath w5 e,
            pollJobStatus env c up.JobID (atPoll c w3) = (w4, .ok job) →
            computeOutputPath options (filepath.Base options.InputPath) = some outputPath →
            downloadFile env job.DownloadURL outputPath (atDownload c w4) = (w5, some e) →
            StopsAt c w w5 e (ConvertFile env c options w) ∧
            QuietStep (atDownload c w4) w5)))) := by
  have heq := ConvertFile_started env c options w fileSize sourceFormat hkey hin hfmt hstat hext
  have stops : ∀ wk e, ConvertFile env c options w =
      (c.emit "error" (errorData e) wk, .returned (.error e)) →
      StopsAt c w wk e (ConvertFile env c options w) := by
    intro wk e h
    have herr : (ConvertFile env c options w).2 = .returned (.error e) := by rw [h]
    obtain ⟨k1, k2⟩ := ConvertFile_error_counts env c options w fileSize sourceFormat e
      hkey hin hfmt hstat hext herr
    refine ⟨herr, by rw [h], ?_, k1, k2⟩
    rw [h]; simp [errorData]
  refine ⟨fun w1 e h1 => ⟨stops w1 e ?_, ?_⟩, fun w1 up h1 =>
    ⟨fun w2 e h2 => ⟨stops w2 e ?_, ?_⟩, fun w2 h2 =>
      ⟨fun w3 e h3 => ⟨stops w3 e ?_, ?_⟩, fun w3 h3 =>
        ⟨fun w4 e h4 => stops w4 e ?_, fun w4 job outputPath w5 e h4 hout h5 =>
          ⟨stops w5 e ?_, ?_⟩⟩⟩⟩⟩
  · rw [heq]; unfold fromRequest; unfold atRequest at h1; dsimp only; rw [h1]
  · rcases requestUploadURL_cases env c (filepath.Base options.InputPath) options.TargetFormat
        options.ConversionMetadata (atRequest c options sourceFormat fileSize w) with
      ⟨v, e2, hv, hq, _, _⟩ | ⟨_, _, _, _, _, _, hv⟩
    · rw [h1] at hv; simp only [Prod.mk.injEq] at hv; rw [hv.1]; exact hq
    · rw [h1] at hv; simp at hv
  · rw [heq]; unfold fromRequest; unfold atRequest at h1; dsimp only; rw [h1]
    dsimp only; unfold fromUpload; unfold atUpload at h2; dsimp only; rw [h2]
  · rcases uploadToS3_cases env up.UploadURL options.InputPath (atUpload c w1) with
      ⟨v, e2, hv, hq, _, _⟩ | ⟨_, _, _, _, _, _, hv⟩
    · rw [h2] at hv; simp only [Prod.mk.injEq] at hv; rw [hv.1]; exact hq
    · rw [h2] at hv; simp at hv
  · rw [heq]; unfold fromRequest; unfold atRequest at h1; dsimp only; rw [h1]
    dsimp only; unfold fromUpload; unfold atUpload at h2; dsimp only; rw [h2]
    dsimp only; unfold fromConfirm; unfold atConfirm at h3; dsimp only; rw [h3]
  · rcases confirmUpload_cases env c up.JobID (atConfirm c w2) with
      ⟨v, e2, hv, hq, _, _⟩ | ⟨_, _, _, _, hv⟩
    · rw [h3] at hv; simp only [Prod.mk.injEq] at hv; rw [hv.1]; exact hq
    · rw [h3] at hv; simp at hv
  · rw [heq]; unfold fromRequest; unfold atRequest at h1; dsimp only; rw [h1]
    dsimp only; unfold fromUpload; unfold atUpload at h2; dsimp only; rw [h2]
    dsimp only; unfold fromConfirm; unfold atConfirm at h3; dsimp only; rw [h3]
    dsimp only; unfold fromPoll; unfold atPoll at h4; dsimp only; rw [h4]
  · rw [heq]; unfold fromRequest; unfold atRequest at h1; dsimp only; rw [h1]
    dsimp only; unfold fromUpload; unfold atUpload at h2; dsimp only; rw [h2]
    dsimp only; unfold fromConfirm; unfold atConfirm at h3; dsimp only; rw [h3]
    dsimp only; unfold fromPoll; unfold atPoll at h4; dsimp only; rw [h4]
    dsimp only; unfold fromDownload; unfold atDownload at h5; dsimp only; rw [hout]
    dsimp only; rw [h5]
  · rcases downloadFile_cases env job.DownloadURL outputPath (atDownload c w4) with
      ⟨v, e2, hv, hq⟩ | ⟨_, _, _, hv, _⟩
    · rw [h5] at hv; simp only [Prod.mk.injEq] at hv; rw [hv.1]; exact hq
    · rw [h5] at hv; simp at hv

/-- C6 witness: the example service reports the job failed at the first status
fetch; the run returns the failure, emits `error` once and `complete` never,
and makes no download. -/
theorem ConvertFile_step_failure_witness :
    (ConvertFile (scriptEnv failedScript) (demoClient 3) (demoOptions "./photo.png")
        (demoWorld "./photo.png")).2 =
      .returned (.error "conversion failed: unsupported image") ∧
    (eventNames (ConvertFile (scriptEnv failedScript) (demoClient 3)
        (demoOptions "./photo.png") (demoWorld "./photo.png")).1.trace).count "error" = 1 ∧
    (eventNames (ConvertFile (scriptEnv failedScript) (demoClient 3)
        (demoOptions "./photo.png") (demoWorld "./photo.png")).1.trace).count "complete" = 0 := by
  have h := ConvertFile_step_failure (scriptEnv failedScript) (demoClient 3)
    (demoOptions "./photo.png") (demoWorld "./photo.png") 7 "png"
    (by decide) (by decide) (by decide) rfl rfl
  have h4 := (((h.2 _ ⟨"job-1", "https://s3.example/slot"⟩ rfl).2 _ rfl).2 _ rfl).1 _
    "conversion failed: unsupported image" rfl
  exact ⟨h4.1, h4.2.2.2.1, h4.2.2.2.2⟩


/-- C7: the HTTP exchanges of a successful run are, in this order and with no
other in between:
one `POST` to `<base URL>/api/upload/request-url`, with the client's bearer
token, whose body is the JSON of `file_name` (the base name of the input),
`target_format` and, if given, `conversion_metadata`, answered 200 with a body
that decodes to `up`;
one `PUT` to `up.UploadURL` whose body is the content of the input file, with
its length as content length and without bearer token, answered 200 or 204;
one `POST` to `<base URL>/api/upload/confirm` whose body is the JSON of
`{"job_id": up.JobID}`, answered 200;
one or more `GET` of `<base URL>/api/jobs/<up.JobID>`, the last of which is
answered 200 with the job whose status is `completed`;
one `GET` of that job's `DownloadURL`, answered 200. -/
theorem ConvertFile_success_calls {σ : Type} (env : Env) (c : Client σ)
    (options : ConvertFileOptions) (w : World σ) (res : ConvertFileResult)
    (added : List Action)
    (hok : (ConvertFile env c options w).2 = .returned (.ok res))
    (htr : (ConvertFile env c options w).1.trace = w.trace ++ added) :
    ∃ (body1 respBody1 : String) (up : UploadURLResponse) (content : String) (status2 : Int)
      (respBody2 body3 respBody3 : String) (earlier : List (Request × Response))
      (jobBody : String) (job : Job) (downloaded : String),
      env.marshal
        ([("file_name", Value.str (filepath.Base options.InputPath)),
          ("target_format", Value.str options.TargetFormat)] ++
          (match options.ConversionMetadata with
           | some m => [("conversion_metadata", Value.metadata m)]
           | none => [])) = .ok body1 ∧
      env.decodeUploadURL respBody1 = .ok up ∧
      w.files options.InputPath = some content ∧ (status2 = 200 ∨ status2 = 204) ∧
      env.marshal [("job_id", Value.str up.JobID)] = .ok body3 ∧
      (∀ x ∈ earlier, x.1 =
        ({ method := "GET", url := c.baseURL ++ "/api/jobs/" ++ up.JobID,
           headers := [("Authorization", "Bearer " ++ c.apiKey)],
           body := none, contentLength := 0 } : Request)) ∧
      env.decodeJob jobBody = .ok job ∧ job.Status = "completed" ∧
      httpCalls added =
        [(({ method := "POST", url := c.baseURL ++ "/api/upload/request-url",
             headers := [("Authorization", "Bearer " ++ c.apiKey),
                         ("Content-Type", "application/json")],
             body := some body1, contentLength := byteLen body1 } : Request),
          Response.reply 200 respBody1),
         (({ method := "PUT", url := up.UploadURL,
             headers := [("Content-Type", "application/octet-stream")],
             body := some content, contentLength := byteLen content } : Request),
          Response.reply status2 respBody2),
         (({ method := "POST", url := c.baseURL ++ "/api/upload/confirm",
             headers := [("Authorization", "Bearer " ++ c.apiKey),
                         ("Content-Type", "application/json")],
             body := some body3, contentLength := byteLen body3 } : Request),
          Response.reply 200 respBody3)] ++ earlier ++
        [(({ method := "GET", url := c.baseURL ++ "/api/jobs/" ++ up.JobID,
             headers := [("Authorization", "Bearer " ++ c.apiKey)],
             body := none, contentLength := 0 } : Request),
          Response.reply 200 jobBody),
         (({ method := "GET", url := job.DownloadURL, headers := [],
             body := none, contentLength := 0 } : Request),
          Response.reply 200 downloaded)] := by
  obtain ⟨fileSize, sourceFormat, body1, rb1, up, content, st2, rb2, body3, rb3, front, jobBody,
    job, outputPath, downloaded, _, _, hm1, hdec1, hfile, hst2, hm3, hpoll, hdecj,
    hcompleted, _, _, _, htrace⟩ := ConvertFile_ok_trace env c options w res hok
  have hadd := List.append_cancel_left (htr.symm.trans htrace)
  rw [uploadURLBody_eq] at hm1
  refine ⟨body1, rb1, up, content, st2, rb2, body3, rb3, httpCalls front, jobBody, job,
    downloaded, hm1, hdec1, hfile, hst2, hm3, ?_, hdecj, hcompleted, ?_⟩
  · intro x hx
    rw [(pollActions_observed c up.JobID front hpoll).2.2.1 x hx]
    rfl
  · rw [hadd]
    simp [progressEvent, uploadURLRequest, uploadRequest, confirmRequest, getJobRequest,
      downloadRequest]

/-- C7 witness: the run against the example service that checks method, URL
and body of what it is sent, on `./photo.png`. -/
theorem ConvertFile_success_calls_witness :
    (∃ (body1 respBody1 : String) (up : UploadURLResponse) (content : String) (status2 : Int)
      (respBody2 body3 respBody3 : String) (earlier : List (Request × Response))
      (jobBody : String) (job : Job) (downloaded : String),
      (checkingEnv "photo.png").marshal
        ([("file_name", Value.str (filepath.Base "./photo.png")),
          ("target_format", Value.str "jpg")] ++
          (match (none : Option Metadata) with
           | some m => [("conversion_metadata", Value.metadata m)]
           | none => [])) = .ok body1 ∧
      (checkingEnv "photo.png").decodeUploadURL respBody1 = .ok up ∧
      (demoWorld "./photo.png").files "./photo.png" = some content ∧
      (status2 = 200 ∨ status2 = 204) ∧
      (checkingEnv "photo.png").marshal [("job_id", Value.str up.JobID)] = .ok body3 ∧
      (∀ x ∈ earlier, x.1 =
        ({ method := "GET", url := (demoClient 3).baseURL ++ "/api/jobs/" ++ up.JobID,
           headers := [("Authorization", "Bearer " ++ (demoClient 3).apiKey)],
           body := none, contentLength := 0 } : Request)) ∧
      (checkingEnv "photo.png").decodeJob jobBody = .ok job ∧ job.Status = "completed" ∧
      httpCalls (ConvertFile (checkingEnv "photo.png") (demoClient 3)
          (demoOptions "./photo.png") (demoWorld "./photo.png")).1.trace =
        [(({ method := "POST", url := (demoClient 3).baseURL ++ "/api/upload/request-url",
             headers := [("Authorization", "Bearer " ++ (demoClient 3).apiKey),
                         ("Content-Type", "application/json")],
             body := some body1, contentLength := byteLen body1 } : Request),
          Response.reply 200 respBody1),
         (({ method := "PUT", url := up.UploadURL,
             headers := [("Content-Type", "application/octet-stream")],
             body := some content, contentLength := byteLen content } : Request),
          Response.reply status2 respBody2),
         (({ method := "POST", url := (demoClient 3).baseURL ++ "/api/upload/confirm",
             headers := [("Authorization", "Bearer " ++ (demoClient 3).apiKey),
                         ("Content-Type", "application/json")],
             body := some body3, contentLength := byteLen body3 } : Request),
          Response.reply 200 respBody3)] ++ earlier ++
        [(({ method := "GET", url := (demoClient 3).baseURL ++ "/api/jobs/" ++ up.JobID,
             headers := [("Authorization", "Bearer " ++ (demoClient 3).apiKey)],
             body := none, contentLength := 0 } : Request),
          Response.reply 200 jobBody),
         (({ method := "GET", url := job.DownloadURL, headers := [],
             body := none, contentLength := 0 } : Request),
          Response.reply 200 downloaded)]) ∧
    httpCalls (ConvertFile (checkingEnv "photo.png") (demoClient 3)
        (demoOptions "./photo.png") (demoWorld "./photo.png")).1.trace =
      [(({ method := "POST", url := "https://api.convertorio.com/api/upload/request-url",
           headers := [("Authorization", "Bearer key"), ("Content-Type", "application/json")],
           body := some "file_name=photo.png;target_format=jpg;",
           contentLength := 38 } : Request),
        Response.reply 200 "slot"),
       (({ method := "PUT", url := "https://s3.example/slot",
           headers := [("Content-Type", "application/octet-stream")],
           body := some "PNGDATA", contentLength := 7 } : Request),
        Response.reply 200 ""),
       (({ method := "POST", url := "https://api.convertorio.com/api/upload/confirm",
           headers := [("Authorization", "Bearer key"), ("Content-Type", "application/json")],
           body := some "job_id=job-1;", contentLength := 13 } : Request),
        Response.reply 200 "{}"),
       (({ method := "GET", url := "https://api.convertorio.com/api/jobs/job-1",
           headers := [("Authorization", "Bearer key")],
           body := none, contentLength := 0 } : Request),
        Response.reply 200 "completed"),
       (({ method := "GET", url := "https://cdn.example/job-1.jpg", headers := [],
           body := none, contentLength := 0 } : Request),
        Response.reply 200 "JPEGDATA")] :=
  ⟨ConvertFile_success_calls (checkingEnv "photo.png") (demoClient 3)
    (demoOptions "./photo.png") (demoWorld "./photo.png")
    (resultOf (demoOptions "./photo.png") (demoJob "completed") "photo.jpg" 8)
    (ConvertFile (checkingEnv "photo.png") (demoClient 3) (demoOptions "./photo.png")
      (demoWorld "./photo.png")).1.trace
    rfl rfl, by decide⟩


/-- C8 (as stated, refuted): the successful run of the example service on
`./photo.png` with target `jpg` and no output path returns the output path
`photo.jpg`, not `./photo.jpg`, although `<input dir>/<base name without
extension>.<target format>` spells `./photo.jpg`. -/
theorem ConvertFile_photo_output_path :
    (ConvertFile (scriptEnv happyScript) (demoClient 3) (demoOptions "./photo.png")
        (demoWorld "./photo.png")).2 =
      .returned (.ok (resultOf (demoOptions "./photo.png") (demoJob "completed") "photo.jpg" 8)) ∧
    (resultOf (demoOptions "./photo.png") (demoJob "completed") "photo.jpg" 8).OutputPath =
      "photo.jpg" ∧
    (resultOf (demoOptions "./photo.png") (demoJob "completed") "photo.jpg" 8).OutputPath ≠
      "./photo.jpg" ∧
    filepath.Dir "./photo.png" ++ "/" ++ "photo" ++ "." ++ "jpg" = "./photo.jpg" :=
  ⟨rfl, rfl, by decide, by decide⟩

/-- C8 (amended): when `ConvertFile` is called with an empty `OutputPath` and
succeeds, the result's `OutputPath` is `filepath.Join` of the input directory
and `<base name without extension>.<target format>`, that is the cleaned form
of `<input dir>/<base name without extension>.<target format>`, and the
downloaded file is at that path; for input `./photo.png` and target `jpg` it
is `photo.jpg`. -/
theorem ConvertFile_default_output_path {σ : Type} (env : Env) (c : Client σ)
    (options : ConvertFileOptions) (w : World σ) (res : ConvertFileResult)
    (hok : (ConvertFile env c options w).2 = .returned (.ok res))
    (hempty : options.OutputPath = "") :
    res.OutputPath =
      filepath.Join [filepath.Dir options.InputPath,
        String.mk ((filepath.Base options.InputPath).data.take
          ((filepath.Base options.InputPath).data.length -
            (filepath.Ext (filepath.Base options.InputPath)).data.length)) ++ "." ++
          options.TargetFormat] ∧
    res.OutputPath =
      filepath.Clean (filepath.Dir options.InputPath ++ "/" ++
        (String.mk ((filepath.Base options.InputPath).data.take
          ((filepath.Base options.InputPath).data.length -
            (filepath.Ext (filepath.Base options.InputPath)).data.length)) ++ "." ++
          options.TargetFormat)) ∧
    (∃ downloaded, (ConvertFile env c options w).1.files res.OutputPath = some downloaded) ∧
    (options.InputPath = "./photo.png" → options.TargetFormat = "jpg" →
      res.OutputPath = "photo.jpg") := by
  obtain ⟨_, _, _, _, _, _, _, _, _, _, _, _, job, outputPath, downloaded, _, _, _, _, _, _, _,
    _, _, _, hout, hres, hfiles, _⟩ := ConvertFile_ok_trace env c options w res hok
  rw [computeOutputPath_eq, if_pos hempty] at hout
  simp only [Option.some.injEq] at hout
  have hpath : res.OutputPath = outputPath := by rw [hres]; rfl
  have hjoin : res.OutputPath =
      filepath.Join [filepath.Dir options.InputPath,
        String.mk ((filepath.Base options.InputPath).data.take
          ((filepath.Base options.InputPath).data.length -
            (filepath.Ext (filepath.Base options.InputPath)).data.length)) ++ "." ++
          options.TargetFormat] := by rw [hpath, hout]
  refine ⟨hjoin, ?_, ⟨downloaded, by rw [hpath]; exact hfiles⟩, ?_⟩
  · rw [hjoin, Join_Dir]
  · intro hin hfmt
    rw [hjoin, hin, hfmt]
    decide

/-- C8 witness: the run of the example service on `./photo.png` succeeds with
an empty `OutputPath` in the options, and the path of its result is the join
of `.` and `photo.jpg`. -/
theorem ConvertFile_default_output_path_witness :
    (ConvertFile (scriptEnv happyScript) (demoClient 3) (demoOptions "./photo.png")
        (demoWorld "./photo.png")).2 =
      .returned (.ok (resultOf (demoOptions "./photo.png") (demoJob "completed") "photo.jpg" 8)) ∧
    (demoOptions "./photo.png").OutputPath = "" ∧
    (resultOf (demoOptions "./photo.png") (demoJob "completed") "photo.jpg" 8).OutputPath =
      filepath.Join [filepath.Dir "./photo.png", "photo" ++ "." ++ "jpg"] ∧
    (resultOf (demoOptions "./photo.png") (demoJob "completed") "photo.jpg" 8).OutputPath =
      "photo.jpg" :=
  ⟨rfl, rfl,
   (ConvertFile_default_output_path (scriptEnv happyScript) (demoClient 3)
    (demoOptions "./photo.png") (demoWorld "./photo.png")
    (resultOf (demoOptions "./photo.png") (demoJob "completed") "photo.jpg" 8)
    rfl rfl).1,
   (ConvertFile_default_output_path (scriptEnv happyScript) (demoClient 3)
    (demoOptions "./photo.png") (demoWorld "./photo.png")
    (resultOf (demoOptions "./photo.png") (demoJob "completed") "photo.jpg" 8)
    rfl rfl).2.2.2 rfl rfl⟩


/-- C9: when `ConvertFile` is called with a non-empty `OutputPath` and succeeds,
the result's `OutputPath` is the caller's string unchanged; the last two HTTP
exchanges are the `GET` of `<base URL>/api/jobs/<job ID>` answered 200 with the
job whose status is `completed`, and the `GET` of that job's `DownloadURL`,
answered 200 with a body that is then the content of the file at the caller's
path; the result has `Success = true`, `InputPath` equal to the caller's input
path, and `JobID`, `SourceFormat`, `TargetFormat`, `ProcessingTime`,
`DownloadURL` and `Metadata` copied from that job. -/
theorem ConvertFile_explicit_output_path {σ : Type} (env : Env) (c : Client σ)
    (options : ConvertFileOptions) (w : World σ) (res : ConvertFileResult)
    (added : List Action)
    (hok : (ConvertFile env c options w).2 = .returned (.ok res))
    (htr : (ConvertFile env c options w).1.trace = w.trace ++ added)
    (hgiven : options.OutputPath ≠ "") :
    res.OutputPath = options.OutputPath ∧ res.Success = true ∧
    res.InputPath = options.InputPath ∧
    ∃ (job : Job) (jobID jobBody downloaded : String) (before : List (Request × Response)),
      httpCalls added = before ++
        [(({ method := "GET", url := c.baseURL ++ "/api/jobs/" ++ jobID,
             headers := [("Authorization", "Bearer " ++ c.apiKey)],
             body := none, contentLength := 0 } : Request),
          Response.reply 200 jobBody),
         (({ method := "GET", url := job.DownloadURL, headers := [],
             body := none, contentLength := 0 } : Request),
          Response.reply 200 downloaded)] ∧
      env.decodeJob jobBody = .ok job ∧ job.Status = "completed" ∧
      (ConvertFile env c options w).1.files options.OutputPath = some downloaded ∧
      res.JobID = job.ID ∧ res.SourceFormat = job.SourceFormat ∧
      res.TargetFormat = job.TargetFormat ∧ res.ProcessingTime = job.ProcessingTimeMs ∧
      res.DownloadURL = job.DownloadURL ∧ res.Metadata = job.Metadata := by
  obtain ⟨fileSize, sourceFormat, body1, rb1, up, content, st2, rb2, body3, rb3, front, jobBody,
    job, outputPath, downloaded, _, _, _, _, _, _, _, _, hdecj,
    hcompleted, hout, hres, hfiles, htrace⟩ := ConvertFile_ok_trace env c options w res hok
  rw [computeOutputPath_eq, if_neg hgiven] at hout
  simp only [Option.some.injEq] at hout
  subst hout
  have hadd := List.append_cancel_left (htr.symm.trans htrace)
  subst hres
  refine ⟨rfl, rfl, rfl, job, up.JobID, jobBody, downloaded,
    [(uploadURLRequest c body1, .reply 200 rb1),
     (uploadRequest up.UploadURL content, .reply st2 rb2),
     (confirmRequest c body3, .reply 200 rb3)] ++ httpCalls front,
    ?_, hdecj, hcompleted, hfiles, rfl, rfl, rfl, rfl, rfl, rfl⟩
  rw [hadd]
  simp [progressEvent, getJobRequest, downloadRequest]

/-- C9 witness: `./test-image.png` converted to `jpg` with the output path
`./output-test.jpg`, as in the test program, against the example service that
checks method, URL and body of what it is sent: the run succeeds, the result
carries the path as given and the fields of the completed job, the last two
exchanges are the fetch of `job-1` and the download of its file, and the
downloaded bytes are at that path. -/
theorem ConvertFile_explicit_output_path_witness :
    (ConvertFile (checkingEnv "test-image.png") (demoClient 3)
        (demoOptionsTo "./test-image.png" "./output-test.jpg")
        (demoWorld "./test-image.png")).2 =
      .returned (.ok (resultOf (demoOptionsTo "./test-image.png" "./output-test.jpg")
        (demoJob "completed") "./output-test.jpg" 8)) ∧
    (resultOf (demoOptionsTo "./test-image.png" "./output-test.jpg") (demoJob "completed")
        "./output-test.jpg" 8).OutputPath = "./output-test.jpg" ∧
    (resultOf (demoOptionsTo "./test-image.png" "./output-test.jpg") (demoJob "completed")
        "./output-test.jpg" 8).Success = true ∧
    (resultOf (demoOptionsTo "./test-image.png" "./output-test.jpg") (demoJob "completed")
        "./output-test.jpg" 8).InputPath = "./test-image.png" ∧
    (httpCalls (ConvertFile (checkingEnv "test-image.png") (demoClient 3)
        (demoOptionsTo "./test-image.png" "./output-test.jpg")
        (demoWorld "./test-image.png")).1.trace).drop 3 =
      [(({ method := "GET", url := "https://api.convertorio.com/api/jobs/job-1",
           headers := [("Authorization", "Bearer key")],
           body := none, contentLength := 0 } : Request),
        Response.reply 200 "completed"),
       (({ method := "GET", url := "https://cdn.example/job-1.jpg", headers := [],
           body := none, contentLength := 0 } : Request),
        Response.reply 200 "JPEGDATA")] ∧
    (ConvertFile (checkingEnv "test-image.png") (demoClient 3)
        (demoOptionsTo "./test-image.png" "./output-test.jpg")
        (demoWorld "./test-image.png")).1.files "./output-test.jpg" = some "JPEGDATA" :=
  let h := ConvertFile_explicit_output_path (checkingEnv "test-image.png") (demoClient 3)
    (demoOptionsTo "./test-image.png" "./output-test.jpg") (demoWorld "./test-image.png")
    (resultOf (demoOptionsTo "./test-image.png" "./output-test.jpg") (demoJob "completed")
      "./output-test.jpg" 8)
    (ConvertFile (checkingEnv "test-image.png") (demoClient 3)
      (demoOptionsTo "./test-image.png" "./output-test.jpg")
      (demoWorld "./test-image.png")).1.trace
    rfl rfl (by decide)
  ⟨rfl, h.1, h.2.1, h.2.2.1, by decide, rfl⟩

end Convertorio
